import Mathlib

/-!
# ifcfg-networkd

A shallow embedding of `src/ifcfg-networkd.c`, the generator of systemd-networkd
`.network` files from the `ifcfg=` directives of the kernel command line, and
theorems about it.

The first part translates the source function by function (the line numbers
are those of the source), followed by the notions in which the theorems are
stated; the second part holds the theorems.

Conventions of the embedding.

* A C string is the list of its `char`s before the terminating NUL
  (`List Char`); a possibly-NULL `char *` is an `Option (List Char)`.
* A pointer that walks a string is the suffix of the list that starts at it.
* The C `int`s used as truth values (`is_dhcp`, `in_quote`, ...) are `Bool`.
* Memory allocation is taken to succeed (`strdup`, `calloc`, `asprintf`), so
  the `-ENOMEM` returns do not occur.
* The messages written to stdout and stderr are not part of the state.
* The file system is the map from a path to the content of the file there.
-/

namespace IfcfgNetworkd

/-! ## Configuration (lines 17-20, 206) and errno values -/

def CMDLINE_PATH : List Char := "/proc/cmdline".toList
def OUTPUT_DIR : List Char := "/run/systemd/network".toList
def FILE_PREFIX : List Char := "60-ifcfg-".toList
def MAX_TOKENS : Nat := 10

def EINVAL : Int := 22

/-! ## libc, in the "C" locale (the program never calls setlocale) -/

/-- The NUL character that ends a C string. -/
def NUL : Char := Char.ofNat 0

/-- isspace(3): space, \t, \n, \v, \f, \r. -/
def isspace (c : Char) : Bool :=
  c == ' ' || c == '\t' || c == '\n' || c == '\x0b' || c == '\x0c' || c == '\r'

/-- isalnum(3): the ASCII digits and letters; no other character is
alphanumeric in the "C" locale. -/
def isalnum (c : Char) : Bool :=
  (48 ≤ c.toNat && c.toNat ≤ 57) || (65 ≤ c.toNat && c.toNat ≤ 90) ||
    (97 ≤ c.toNat && c.toNat ≤ 122)

/-- strchr(3) as a test: does `c` occur in the string. -/
def strchr (s : List Char) (c : Char) : Bool := s.contains c

/-- The part of `s` before the first `c` (what a string reads as once the first
`c` has been overwritten by NUL), the whole of `s` when `c` does not occur. -/
def before (s : List Char) (c : Char) : List Char := s.takeWhile (fun x => x != c)

/-- The part of `s` after the first `c` (`strchr (s, c) + 1`). -/
def after (s : List Char) (c : Char) : List Char := (s.dropWhile (fun x => x != c)).drop 1

/-- strcmp(3) compared with 0: the two strings are equal. -/
def strcmp_eq_zero (a b : List Char) : Bool := a == b

/-- One call of strtok_r(3) with the delimiter set " ": skip the leading
spaces; at the end of the string there is no token; otherwise the token runs
up to the next space and the scan resumes behind that space. -/
def strtok_r (s : List Char) : Option (List Char × List Char) :=
  let s := s.dropWhile (fun x => x == ' ')
  if s.isEmpty then none else some (before s ' ', after s ' ')

/-- The tokens that the successive calls of strtok_r(3) with the delimiter set
" " return until it returns NULL: the maximal non-empty runs of characters
other than the space, in order. `cur` is the run read so far. -/
def strtok_run : List Char → List Char → List (List Char)
  | cur, [] => if cur.isEmpty then [] else [cur]
  | cur, c :: s =>
    if c == ' ' then
      if cur.isEmpty then strtok_run [] s else cur :: strtok_run [] s
    else strtok_run (cur ++ [c]) s

def strtok_tokens (s : List Char) : List (List Char) := strtok_run [] s

/-- The first line of a stream as getline(3) returns it, its newline included;
`none` at end of file. -/
def getline (content : List Char) : Option (List Char) :=
  if content.isEmpty then none
  else some (before content '\n' ++ (if strchr content '\n' then ['\n'] else []))

/-! ## basics.h -/

/-- Modelled from the spec: `basics.h` is not among the sources. `streq (a, b)`
is the test for an exact match of two strings. -/
def streq (a b : List Char) : Bool := a == b

/-- Modelled from the spec: `basics.h` is not among the sources.
`strneq (a, b, n)` tests that the first `n` characters of the two strings
agree; with `b` a literal of length `n` it tests that `a` starts with `b`. -/
def strneq (a b : List Char) (n : Nat) : Bool := a.take n == b.take n

/-- Modelled from the spec: `basics.h` is not among the sources. `isempty (s)`
holds of an absent (NULL) and of an empty string. -/
def isempty (s : Option (List Char)) : Bool :=
  match s with
  | none => true
  | some l => l.isEmpty

/-! ## trim_whitespace (lines 22-39) -/

/-- The backward scan `while (end > str && isspace (*end)) end--`, on the
offset of `end` from `str`. -/
def trim_end (str : List Char) : Nat → Nat
  | 0 => 0
  | e + 1 => if isspace (str.getD (e + 1) NUL) then trim_end str e else e + 1

def trim_whitespace (str : List Char) : List Char :=
  let str := str.dropWhile isspace
  if str.isEmpty then str
  else str.take (trim_end str (str.length - 1) + 1)

/-! ## sanitize_filename (lines 41-58) -/

def sanitize_filename : List Char → List Char
  | [] => []
  | c :: src => (if isalnum c || c == '-' || c == '.' then c else '_') :: sanitize_filename src

/-! ## split_and_print (lines 60-80) -/

/-- The stream `fp` is the text written to it so far. -/
def fprintf (fp : List Char) (text : List Char) : List Char := fp ++ text

def split_and_print (fp : List Char) (key : List Char) (list : Option (List Char)) :
    Int × List Char :=
  if isempty list then (0, fp)
  else
    (0, (strtok_tokens (list.getD [])).foldl
      (fun fp token => fprintf fp (key ++ "=".toList ++ token ++ "\n".toList)) fp)

/-! ## The world outside the program -/

/-- The state of the environment: the files by path, the errno with which
`fopen (path, "w")` fails (`none` when it succeeds), the errno with which the
output directory can neither be found nor created, the content of
`/proc/cmdline` (or the errno of opening it) and the errno left by a failed
getline. -/
structure World where
  files : List Char → Option (List Char)
  fopen_errno : List Char → Option Int
  mkdir_errno : Option Int
  proc_cmdline : Except Int (List Char)
  getline_errno : Int

/-- The world after the file at `path` has been opened with mode "w", written
with `content` and closed. -/
def World.store (w : World) (path content : List Char) : World :=
  { w with files := fun p => if p = path then some content else w.files p }

/-! ## write_network_file (lines 83-174) -/

/-- The path composed by asprintf on lines 99-100. -/
def filepath (interface : List Char) : List Char :=
  OUTPUT_DIR ++ "/".toList ++ FILE_PREFIX ++ sanitize_filename interface ++ ".network".toList

/-- Lines 114-173: what write_network_file prints to the stream it has opened,
with its return value. -/
def write_sections (interface : List Char) (is_dhcp dhcp_v4 dhcp_v6 rfc2132 : Bool)
    (ip_list gw_list dns_list domains : Option (List Char)) : Int × List Char :=
  let fp : List Char := []
  -- [Match] section
  let fp := fprintf fp "[Match]\n".toList
  let fp :=
    if strchr interface ':' then
      fprintf fp ("Name=*\nMACAddress=".toList ++ interface ++ "\n".toList)
    else fprintf fp ("Name=".toList ++ interface ++ "\n".toList)
  -- [Network] section
  let fp := fprintf fp "\n[Network]\n".toList
  let fp :=
    if is_dhcp then
      if dhcp_v4 && dhcp_v6 then fprintf fp "DHCP=yes\n".toList
      else if dhcp_v4 then fprintf fp "DHCP=ipv4\n".toList
      else if dhcp_v6 then fprintf fp "DHCP=ipv6\n".toList
      else fp
    else fp
  -- static IPs (space separated)
  let (r, fp) := split_and_print fp "Address".toList ip_list
  if r < 0 then (r, fp) else
  let (r, fp) := split_and_print fp "Gateway".toList gw_list
  if r < 0 then (r, fp) else
  let (r, fp) := split_and_print fp "DNS".toList dns_list
  if r < 0 then (r, fp) else
  let fp :=
    if !isempty domains then
      fprintf fp ("Domains=".toList ++ domains.getD [] ++ "\n".toList)
    else fp
  -- DHCP specific options
  let fp :=
    if is_dhcp then
      let fp :=
        if dhcp_v4 then
          let fp := fprintf fp "\n[DHCPv4]\n".toList
          let fp := fprintf fp "UseHostname=false\n".toList
          let fp := fprintf fp "UseDNS=true\n".toList
          let fp := fprintf fp "UseNTP=true\n".toList
          if rfc2132 then fprintf fp "ClientIdentifier=mac\n".toList else fp
        else fp
      if dhcp_v6 then
        let fp := fprintf fp "\n[DHCPv6]\n".toList
        let fp := fprintf fp "UseHostname=false\n".toList
        let fp := fprintf fp "UseDNS=true\n".toList
        fprintf fp "UseNTP=true\n".toList
      else fp
    else fp
  (0, fp)

def write_network_file (w : World) (interface : List Char)
    (is_dhcp dhcp_v4 dhcp_v6 rfc2132 : Bool)
    (ip_list gw_list dns_list domains : Option (List Char)) : Int × World :=
  match w.fopen_errno (filepath interface) with
  | some e => (-e, w)
  | none =>
    let (r, fp) := write_sections interface is_dhcp dhcp_v4 dhcp_v6 rfc2132
      ip_list gw_list dns_list domains
    (r, w.store (filepath interface) fp)

/-! ## parse_ifcfg_arg (lines 176-263) -/

/-- The loop of lines 212-226 with `slots` iterations left before
`token_count` reaches MAX_TOKENS; `cur` is the rest of the config. -/
def split_tokens : Nat → List Char → List (List Char)
  | 0, _ => []
  | slots + 1, cur =>
    if strchr cur ',' then
      trim_whitespace (before cur ',') :: split_tokens slots (after cur ',')
    else [trim_whitespace cur]

/-- The local variables of parse_ifcfg_arg when it calls write_network_file
on line 260. -/
structure InterfaceSpec where
  interface : List Char
  is_dhcp : Bool
  dhcp_v4 : Bool
  dhcp_v6 : Bool
  rfc2132 : Bool
  ip_list : Option (List Char)
  gw_list : Option (List Char)
  dns_list : Option (List Char)
  domains : Option (List Char)

/-- Lines 206-258: from the config to the arguments of write_network_file;
`none` is the early `return 0` of line 232. -/
def parse_config (interface config : List Char) : Option InterfaceSpec :=
  let tokens := split_tokens MAX_TOKENS config
  let token_count := tokens.length
  let mode_idx := 0
  if mode_idx ≥ token_count then none
  else
    let mode_str := tokens.getD mode_idx []
    if strneq mode_str "dhcp".toList 4 then
      let (dhcp_v4, dhcp_v6) :=
        if streq mode_str "dhcp4".toList then (true, false)
        else if strcmp_eq_zero mode_str "dhcp6".toList then (false, true)
        else (true, true)
      let rfc2132 :=
        (tokens.drop (mode_idx + 1)).any (fun t => strcmp_eq_zero t "rfc2132".toList)
      some { interface := interface, is_dhcp := true, dhcp_v4 := dhcp_v4, dhcp_v6 := dhcp_v6,
             rfc2132 := rfc2132, ip_list := none, gw_list := none, dns_list := none,
             domains := none }
    else
      some { interface := interface, is_dhcp := false, dhcp_v4 := true, dhcp_v6 := true,
             rfc2132 := false,
             ip_list := if mode_idx < token_count then tokens[mode_idx]? else none,
             gw_list := if mode_idx + 1 < token_count then tokens[mode_idx + 1]? else none,
             dns_list := if mode_idx + 2 < token_count then tokens[mode_idx + 2]? else none,
             domains := if mode_idx + 3 < token_count then tokens[mode_idx + 3]? else none }

/-- The test of line 203 never holds (both pointers are non-NULL there) and is
left out; the value returned by write_network_file is dropped on line 260. -/
def parse_ifcfg_arg (w : World) (arg : List Char) : Int × World :=
  if !strchr arg '=' then (-EINVAL, w)
  else
    let interface := before arg '='
    let config := after arg '='
    match parse_config interface config with
    | none => (0, w)
    | some s =>
      let w := (write_network_file w s.interface s.is_dhcp s.dhcp_v4 s.dhcp_v6 s.rfc2132
        s.ip_list s.gw_list s.dns_list s.domains).2
      (0, w)

/-! ## main (lines 265-356) -/

/-- Lines 338-347: the value of an `ifcfg=` argument with the quotes that
surround it stripped. -/
def strip_quotes (val : List Char) : List Char :=
  match val with
  | [] => val
  | c :: rest =>
    if c == '"' then
      let val := rest
      let l := val.length
      if l > 0 && val.getD (l - 1) NUL == '"' then val.take (l - 1) else val
    else val

/-- The argument that ends at `*p = c`: `arg` holds the characters from
`arg_start` up to `p`; a space at `p` is overwritten by NUL, another character
is followed by the NUL that ends the line. -/
def terminate (arg : List Char) (c : Char) : List Char :=
  if c == ' ' then arg else arg ++ [c]

/-- The parse loop of lines 326-353. `arg` holds the characters from
`arg_start` up to `p` and the last argument of the function those from `p` on.
The writes of strip_quotes and of parse_ifcfg_arg fall between `arg_start` and
`p`, which the loop does not read again. -/
def main_loop (w : World) : List Char → Bool → List Char → World
  | _, _, [] => w
  | arg, in_quote, c :: rest =>
    let in_quote := if c == '"' then !in_quote else in_quote
    if rest.isEmpty || (c == ' ' && !in_quote) then
      let arg := terminate arg c
      let w :=
        if strneq arg "ifcfg=".toList 6 then (parse_ifcfg_arg w (strip_quotes (arg.drop 6))).2
        else w
      main_loop w [] in_quote rest
    else main_loop w (arg ++ [c]) in_quote rest

/-- The values with which the parse loop calls parse_ifcfg_arg, in order. -/
def main_values : List Char → Bool → List Char → List (List Char)
  | _, _, [] => []
  | arg, in_quote, c :: rest =>
    let in_quote := if c == '"' then !in_quote else in_quote
    if rest.isEmpty || (c == ' ' && !in_quote) then
      let arg := terminate arg c
      (if strneq arg "ifcfg=".toList 6 then [strip_quotes (arg.drop 6)] else []) ++
        main_values [] in_quote rest
    else main_values (arg ++ [c]) in_quote rest

/-- The program: `argv1` is `argv[1]` when `argc > 1`. The lines 316-317, which
would strip the newline that getline leaves at the end of the line, stand
behind the `return` of line 314 inside the failure branch and are never run. -/
def main (w : World) (argv1 : Option (List Char)) : Int × World :=
  match w.mkdir_errno with
  | some r => (r, w)
  | none =>
    match argv1 with
    | some cmdline => (0, main_loop w [] false cmdline)
    | none =>
      match w.proc_cmdline with
      | .error r => (r, w)
      | .ok content =>
        match getline content with
        | none => (w.getline_errno, w)
        | some cmdline => (0, main_loop w [] false cmdline)

/-! ## Notions used by the statements -/

/-- The pieces obtained by cutting `s` at every `sep`. -/
def cut (sep : Char) : List Char → List (List Char)
  | [] => [[]]
  | c :: s =>
    if c = sep then [] :: cut sep s
    else
      match cut sep s with
      | [] => [[c]]
      | piece :: pieces => (c :: piece) :: pieces

/-- The fields of a config body: its pieces between the commas, each trimmed. -/
def fields (config : List Char) : List (List Char) :=
  (cut ',' config).map trim_whitespace

/-- The lines of a file: the pieces of its content between the newlines. -/
def file_lines (content : List Char) : List (List Char) := cut '\n' content

/-- The characters a file name keeps: alphanumerics, '-' and '.'. -/
def safe_char (c : Char) : Prop := isalnum c = true ∨ c = '-' ∨ c = '.'

/-- A world with no files in which every fopen succeeds. -/
def empty_world : World :=
  { files := fun _ => none, fopen_errno := fun _ => none, mkdir_errno := none,
    proc_cmdline := .ok [], getline_errno := 0 }

/-! ## What the renderer prints -/

/-- The lines printed for one list of a static spec: nothing for an absent
list, and one line `key=token` for each of the space-separated tokens of a
list that is present. -/
def key_lines (key : List Char) (list : Option (List Char)) : List Char :=
  match list with
  | none => []
  | some l => ((strtok_tokens l).map (fun t => key ++ "=".toList ++ t ++ "\n".toList)).flatten

/-- The Domains= line: nothing for an absent or empty search-domain string. -/
def domains_line (domains : Option (List Char)) : List Char :=
  match domains with
  | none => []
  | some d => if d = [] then [] else "Domains=".toList ++ d ++ "\n".toList

/-- The [Match] section for an interface identifier. -/
def match_section (interface : List Char) : List Char :=
  if ':' ∈ interface then "[Match]\nName=*\nMACAddress=".toList ++ interface ++ "\n".toList
  else "[Match]\nName=".toList ++ interface ++ "\n".toList

/-- The DHCP= line of the [Network] section. -/
def dhcp_line (dhcp_v4 dhcp_v6 : Bool) : List Char :=
  if dhcp_v4 = true ∧ dhcp_v6 = true then "DHCP=yes\n".toList
  else if dhcp_v4 = true then "DHCP=ipv4\n".toList
  else if dhcp_v6 = true then "DHCP=ipv6\n".toList
  else []

/-- The [DHCPv4] section, preceded by its blank line. -/
def dhcpv4_section (rfc2132 : Bool) : List Char :=
  "\n[DHCPv4]\nUseHostname=false\nUseDNS=true\nUseNTP=true\n".toList ++
    (if rfc2132 = true then "ClientIdentifier=mac\n".toList else [])

/-- The [DHCPv6] section, preceded by its blank line. -/
def dhcpv6_section : List Char :=
  "\n[DHCPv6]\nUseHostname=false\nUseDNS=true\nUseNTP=true\n".toList

/-! ## Trimmed strings and single tokens -/

/-- A string is trimmed when it is non-empty and neither its first nor its last
character is whitespace. -/
def trimmed (a : List Char) : Prop :=
  a.head?.map isspace = some false ∧ a.getLast?.map isspace = some false

/-- A single token of a field: trimmed, without a space and without a comma. -/
def single_token (a : List Char) : Prop :=
  trimmed a ∧ ' ' ∉ a ∧ ',' ∉ a

/-! ## The values handed to the directive parser -/

/-- The tokens of a line in the words of the spec: the maximal substrings
between the spaces that lie outside double quotes, each double quote toggling
the quoted state. `tok` is the token read so far. -/
def spec_tokens : Bool → List Char → List Char → List (List Char)
  | _, tok, [] => [tok]
  | quoted, tok, c :: rest =>
    if c = '"' then spec_tokens (!quoted) (tok ++ [c]) rest
    else if c = ' ' ∧ quoted = false then tok :: spec_tokens quoted [] rest
    else spec_tokens quoted (tok ++ [c]) rest

/-- Symmetric unquoting in the words of the spec: a value that starts with a
double quote loses it, and then also a trailing double quote if there is one. -/
def spec_unquote (value : List Char) : List Char :=
  if value.head? = some '"' then
    if value.tail.getLast? = some '"' then value.tail.dropLast else value.tail
  else value

/-- The value of a token in the words of the spec: only a token that starts
with `ifcfg=` has one. -/
def spec_value (token : List Char) : Option (List Char) :=
  if "ifcfg=".toList <+: token then some (spec_unquote (token.drop 6)) else none

/-- The values handed to the directive parser, in the words of the spec. -/
def spec_values (line : List Char) : List (List Char) :=
  if line = [] then [] else (spec_tokens false [] line).filterMap spec_value

/-- The quoted state after the characters of `s` have been read. -/
def quoted_after (quoted : Bool) (s : List Char) : Bool :=
  s.foldl (fun q c => if c = '"' then !q else q) quoted

/-! ## The lines of a file -/

/-- A text is terminated when it is empty or ends with a newline. -/
def terminated (s : List Char) : Prop := s = [] ∨ ∃ a, s = a ++ ['\n']

/-! ## DHCP directives and the rfc2132 option -/

/-- The lines of a DHCP spec after the [Network] header. -/
def dhcp_tail (dhcp_v4 dhcp_v6 rfc2132 : Bool) : List Char :=
  dhcp_line dhcp_v4 dhcp_v6 ++
    ((if dhcp_v4 = true then dhcpv4_section rfc2132 else []) ++
     (if dhcp_v6 = true then dhcpv6_section else []))

/-- What write_network_file prints after the [Match] section for a DHCP spec. -/
def dhcp_rest (dhcp_v4 dhcp_v6 rfc2132 : Bool) : List Char :=
  "\n[Network]\n".toList ++ dhcp_tail dhcp_v4 dhcp_v6 rfc2132

/-- A line that starts neither with N nor with M. -/
def body_line (l : List Char) : Bool := l.head? != some 'N' && l.head? != some 'M'

/-! ## The [Match] section and the lines after it -/

/-- The lines of a static spec after the [Network] header. -/
def static_tail (ip_list gw_list dns_list domains : Option (List Char)) : List Char :=
  key_lines "Address".toList ip_list ++ (key_lines "Gateway".toList gw_list ++
    (key_lines "DNS".toList dns_list ++ domains_line domains))

/-- What write_network_file prints after the [Match] section for a static spec. -/
def static_rest (ip_list gw_list dns_list domains : Option (List Char)) : List Char :=
  "\n[Network]\n".toList ++ static_tail ip_list gw_list dns_list domains

/-! ## The content of one directive -/

/-- The text that the directive `interface=config` alone makes
write_network_file print. -/
def directive_content (interface config : List Char) : List Char :=
  match parse_config interface config with
  | none => []
  | some s =>
    (write_sections s.interface s.is_dhcp s.dhcp_v4 s.dhcp_v6 s.rfc2132 s.ip_list s.gw_list
      s.dns_list s.domains).2

/-- The world without files in which `/proc/cmdline` has the given content. -/
def cmdline_world (content : List Char) : World :=
  { empty_world with proc_cmdline := .ok content }

/-- A string with its leading and its trailing whitespace removed. -/
def strip_whitespace (s : List Char) : List Char :=
  ((s.dropWhile isspace).reverse.dropWhile isspace).reverse

/-- A line of one of the four kinds of a static spec. -/
def static_line (l : List Char) : Prop :=
  "Address=".toList <+: l ∨ "Gateway=".toList <+: l ∨ "DNS=".toList <+: l ∨
    "Domains=".toList <+: l

/-- The command line made of the given tokens, one space between two of them. -/
def join_spaces : List (List Char) → List Char
  | [] => []
  | [t] => t
  | t :: u :: ts => t ++ ' ' :: join_spaces (u :: ts)

/-- An unquoted token: it holds neither a space nor a double quote. -/
def unquoted (t : List Char) : Prop := ' ' ∉ t ∧ '"' ∉ t

/-- The space-separated tokens of a list string: its maximal runs of characters
other than the space, in order. -/
def space_runs (l : List Char) : List (List Char) :=
  (cut ' ' l).filter (fun t => !t.isEmpty)

/-- The rank of a line in the order Address=, Gateway=, DNS=; no rank for a
line of another kind. -/
def line_rank (l : List Char) : Option Nat :=
  if "Address=".toList <+: l then some 0
  else if "Gateway=".toList <+: l then some 1
  else if "DNS=".toList <+: l then some 2
  else none

/-! # Theorems -/

/-! ## sanitize_filename -/

theorem sanitize_filename_eq_map (I : List Char) :
    sanitize_filename I =
      I.map (fun c => if isalnum c || c == '-' || c == '.' then c else '_') := by
  induction I with
  | nil => rfl
  | cons c src ih => simp [sanitize_filename, ih]

/-- C9: sanitize_filename keeps the length of the identifier; the character at
each position is the identifier's character there when that is alphanumeric,
'-' or '.', and '_' otherwise; an identifier made only of alphanumerics, '-'
and '.' is returned unchanged. -/
theorem sanitize_filename_spec (I : List Char) :
    (sanitize_filename I).length = I.length ∧
    (∀ i : Nat, (sanitize_filename I)[i]? =
      I[i]?.map (fun c => if isalnum c = true ∨ c = '-' ∨ c = '.' then c else '_')) ∧
    ((∀ c ∈ I, safe_char c) → sanitize_filename I = I) := by
  refine ⟨?_, ?_, ?_⟩
  · simp [sanitize_filename_eq_map]
  · intro i
    simp only [sanitize_filename_eq_map, List.getElem?_map]
    congr 1
    funext c
    simp [Bool.or_eq_true, or_assoc]
  · intro h
    rw [sanitize_filename_eq_map]
    conv_rhs => rw [← List.map_id I]
    apply List.map_congr_left
    intro c hc
    have := h c hc
    simp only [safe_char] at this
    simp only [Bool.or_eq_true, beq_iff_eq, id_eq, ite_eq_left_iff, or_assoc]
    intro hn
    exact absurd this hn

theorem sanitize_filename_spec_witness :
    (∀ c ∈ "eth0.1-a".toList, safe_char c) ∧
    sanitize_filename "eth0.1-a".toList = "eth0.1-a".toList ∧
    (sanitize_filename "eth*:0".toList)[3]? = some '_' :=
  ⟨by simp [safe_char, isalnum],
   (sanitize_filename_spec "eth0.1-a".toList).2.2 (by simp [safe_char, isalnum]),
   by rw [(sanitize_filename_spec "eth*:0".toList).2.1 3]; decide⟩

/-! ## Basic facts about the string helpers -/

theorem strchr_eq_true {s : List Char} {c : Char} : strchr s c = true ↔ c ∈ s := by
  simp [strchr]

theorem strchr_eq_false {s : List Char} {c : Char} : strchr s c = false ↔ c ∉ s := by
  simp [strchr]

theorem before_of_not_mem {s : List Char} {c : Char} (h : c ∉ s) : before s c = s := by
  unfold before
  rw [List.takeWhile_eq_self_iff]
  intro x hx
  have : x ≠ c := fun e => h (e ▸ hx)
  simpa using this

theorem before_append_cons {s : List Char} {c : Char} (h : c ∉ s) (t : List Char) :
    before (s ++ c :: t) c = s := by
  induction s with
  | nil => simp [before]
  | cons x s ih =>
    have hx : x ≠ c := fun e => h (by simp [e])
    have hs : c ∉ s := fun e => h (by simp [e])
    simp only [before, List.cons_append] at ih ⊢
    rw [List.takeWhile_cons_of_pos (by simpa using hx), ih hs]

theorem after_append_cons {s : List Char} {c : Char} (h : c ∉ s) (t : List Char) :
    after (s ++ c :: t) c = t := by
  induction s with
  | nil => simp [after]
  | cons x s ih =>
    have hx : x ≠ c := fun e => h (by simp [e])
    have hs : c ∉ s := fun e => h (by simp [e])
    simp only [after, List.cons_append] at ih ⊢
    rw [List.dropWhile_cons_of_pos (by simpa using hx), ih hs]

theorem strneq_iff_isPrefix (a lit : List Char) :
    strneq a lit lit.length = true ↔ lit <+: a := by
  simp only [strneq, List.take_length, beq_iff_eq]
  rw [List.prefix_iff_eq_take]
  exact eq_comm

theorem split_tokens_head (slots : Nat) (config : List Char) :
    (split_tokens (slots + 1) config)[0]? = some (trim_whitespace (before config ',')) := by
  unfold split_tokens
  by_cases h : strchr config ',' = true
  · simp [h]
  · have h2 : ',' ∉ config := by simpa [strchr] using h
    simp [h, before_of_not_mem h2]

/-! ## parse_config: the mode -/

/-- The mode and the flags that lines 234-243 derive from the trimmed field 0. -/
theorem parse_config_flags (interface config : List Char) :
    ∃ s, parse_config interface config = some s ∧
      s.interface = interface ∧
      (s.is_dhcp = true ↔ "dhcp".toList <+: trim_whitespace (before config ',')) ∧
      (s.dhcp_v4, s.dhcp_v6) =
        (if trim_whitespace (before config ',') = "dhcp4".toList then (true, false)
         else if trim_whitespace (before config ',') = "dhcp6".toList then (false, true)
         else (true, true)) ∧
      (s.dhcp_v4 = true ∨ s.dhcp_v6 = true) := by
  have hhead := split_tokens_head 9 config
  obtain ⟨tl, htl⟩ : ∃ tl, split_tokens MAX_TOKENS config =
      trim_whitespace (before config ',') :: tl := by
    cases hs : split_tokens (9 + 1) config with
    | nil => simp [hs] at hhead
    | cons t tl =>
      refine ⟨tl, ?_⟩
      simp only [hs, List.getElem?_cons_zero, Option.some.injEq] at hhead
      simp [MAX_TOKENS, hs, hhead]
  generalize trim_whitespace (before config ',') = f0 at htl ⊢
  have hpre : strneq f0 "dhcp".toList 4 = true ↔ "dhcp".toList <+: f0 :=
    strneq_iff_isPrefix f0 "dhcp".toList
  simp only [parse_config, htl, List.length_cons, ge_iff_le, Nat.le_zero_eq,
    Nat.add_one_ne_zero, if_false, List.getD_cons_zero]
  have e4 : "dhcp4".toList = ['d', 'h', 'c', 'p', '4'] := rfl
  have e6 : "dhcp6".toList = ['d', 'h', 'c', 'p', '6'] := rfl
  have e0 : "dhcp".toList = ['d', 'h', 'c', 'p'] := rfl
  simp only [e4, e6, e0, streq, strcmp_eq_zero, beq_iff_eq] at hpre ⊢
  by_cases hd : strneq f0 ['d', 'h', 'c', 'p'] 4 = true
  · simp only [hd, if_true, Option.some.injEq, exists_eq_left', true_iff]
    refine ⟨trivial, hpre.1 hd, trivial, ?_⟩
    by_cases h4 : f0 = ['d', 'h', 'c', 'p', '4']
    · simp [h4]
    · by_cases h6 : f0 = ['d', 'h', 'c', 'p', '6']
      · simp [h6]
      · simp [h4, h6]
  · have h4 : f0 ≠ ['d', 'h', 'c', 'p', '4'] := by
      rintro rfl; exact hd (by decide)
    have h6 : f0 ≠ ['d', 'h', 'c', 'p', '6'] := by
      rintro rfl; exact hd (by decide)
    simp only [hd, if_false, Option.some.injEq, exists_eq_left']
    simp [h4, h6, ← hpre, hd]

/-! ## Cutting a string at a separator -/

theorem cut_ne_nil (sep : Char) (s : List Char) : cut sep s ≠ [] := by
  cases s with
  | nil => simp [cut]
  | cons c s =>
    unfold cut
    split
    · simp
    · split <;> simp

theorem cut_of_not_mem {sep : Char} {s : List Char} (h : sep ∉ s) : cut sep s = [s] := by
  induction s with
  | nil => rfl
  | cons c s ih =>
    have hc : c ≠ sep := fun e => h (by simp [e])
    have hs : sep ∉ s := fun e => h (by simp [e])
    simp [cut, hc, ih hs]

theorem cut_append_cons {sep : Char} {a : List Char} (h : sep ∉ a) (b : List Char) :
    cut sep (a ++ sep :: b) = a :: cut sep b := by
  induction a with
  | nil => simp [cut]
  | cons c a ih =>
    have hc : c ≠ sep := fun e => h (by simp [e])
    have ha : sep ∉ a := fun e => h (by simp [e])
    simp [cut, hc, ih ha]

theorem before_append_after {s : List Char} {c : Char} (h : c ∈ s) :
    before s c ++ c :: after s c = s := by
  induction s with
  | nil => simp at h
  | cons x s ih =>
    by_cases hx : x = c
    · subst hx
      simp [before, after]
    · have hs : c ∈ s := by
        rcases List.mem_cons.1 h with e | e
        · exact absurd e.symm hx
        · exact e
      have := ih hs
      simp only [before, after] at this ⊢
      rw [List.takeWhile_cons_of_pos (by simpa using hx),
        List.dropWhile_cons_of_pos (by simpa using hx)]
      rw [List.cons_append, this]

theorem not_mem_before (s : List Char) (c : Char) : c ∉ before s c := by
  intro h
  have := List.mem_takeWhile_imp h
  simp at this

theorem cut_of_mem {sep : Char} {s : List Char} (h : sep ∈ s) :
    cut sep s = before s sep :: cut sep (after s sep) := by
  conv_lhs => rw [← before_append_after h]
  exact cut_append_cons (not_mem_before s sep) _

/-- The field list built by lines 212-226 holds the first `slots` fields. -/
theorem split_tokens_eq_take (slots : Nat) (config : List Char) :
    split_tokens slots config = (fields config).take slots := by
  induction slots generalizing config with
  | zero => simp [split_tokens]
  | succ n ih =>
    unfold split_tokens
    by_cases h : strchr config ',' = true
    · have hm : ',' ∈ config := strchr_eq_true.1 h
      simp [h, fields, cut_of_mem hm, ih, List.map_take]
    · have hm : ',' ∉ config := by simpa [strchr] using h
      simp [h, fields, cut_of_not_mem hm]

theorem fields_head (config : List Char) :
    (fields config)[0]? = some (trim_whitespace (before config ',')) := by
  have := split_tokens_head 0 config
  rw [split_tokens_eq_take] at this
  simpa [List.getElem?_take] using this

/-! ## What the renderer prints -/

theorem foldl_fprintf (f : List Char → List Char) (tokens : List (List Char))
    (fp : List Char) :
    tokens.foldl (fun fp token => fprintf fp (f token)) fp =
      fp ++ (tokens.map f).flatten := by
  induction tokens generalizing fp with
  | nil => simp
  | cons t ts ih =>
    rw [List.foldl_cons, ih]
    simp [fprintf]

theorem strtok_tokens_nil : strtok_tokens [] = [] := rfl

theorem split_and_print_eq (fp key : List Char) (list : Option (List Char)) :
    split_and_print fp key list = (0, fp ++ key_lines key list) := by
  cases list with
  | none => simp [split_and_print, isempty, key_lines]
  | some l =>
    cases l with
    | nil => simp [split_and_print, isempty, key_lines, strtok_tokens_nil]
    | cons c l =>
      simp only [split_and_print, isempty, List.isEmpty_cons, Bool.false_eq_true, if_false,
        Option.getD_some, key_lines]
      rw [foldl_fprintf (fun t => key ++ "=".toList ++ t ++ "\n".toList)]

/-- The text that write_network_file prints, section by section. -/
theorem write_sections_eq (interface : List Char) (is_dhcp dhcp_v4 dhcp_v6 rfc2132 : Bool)
    (ip_list gw_list dns_list domains : Option (List Char)) :
    write_sections interface is_dhcp dhcp_v4 dhcp_v6 rfc2132 ip_list gw_list dns_list domains =
      (0, match_section interface ++ "\n[Network]\n".toList ++
        (if is_dhcp = true then dhcp_line dhcp_v4 dhcp_v6 else []) ++
        key_lines "Address".toList ip_list ++ key_lines "Gateway".toList gw_list ++
        key_lines "DNS".toList dns_list ++ domains_line domains ++
        (if is_dhcp = true then
          (if dhcp_v4 = true then dhcpv4_section rfc2132 else []) ++
          (if dhcp_v6 = true then dhcpv6_section else [])
         else [])) := by
  have hhead : (fprintf
      (if strchr interface ':' = true then
        fprintf (fprintf [] "[Match]\n".toList)
          ("Name=*\nMACAddress=".toList ++ interface ++ "\n".toList)
       else fprintf (fprintf [] "[Match]\n".toList) ("Name=".toList ++ interface ++ "\n".toList))
      "\n[Network]\n".toList) = match_section interface ++ "\n[Network]\n".toList := by
    by_cases h : ':' ∈ interface
    · simp [strchr, h, match_section, fprintf]
    · simp [strchr, h, match_section, fprintf]
  unfold write_sections
  simp only [split_and_print_eq, lt_self_iff_false, if_false]
  rw [hhead]
  cases is_dhcp <;> cases dhcp_v4 <;> cases dhcp_v6 <;> cases rfc2132 <;>
    simp [dhcp_line, dhcpv4_section, dhcpv6_section, fprintf, isempty, domains_line] <;>
    (cases domains with
     | none => simp [isempty, domains_line]
     | some d =>
       cases d with
       | nil => simp [isempty, domains_line]
       | cons c d => simp [isempty, domains_line])

/-! ## The file a directive writes -/

theorem filepath_eq (interface : List Char) :
    filepath interface =
      "/run/systemd/network/60-ifcfg-".toList ++ sanitize_filename interface ++
        ".network".toList := by
  simp [filepath, OUTPUT_DIR, FILE_PREFIX]

theorem write_network_file_eq (w : World) (interface : List Char)
    (is_dhcp dhcp_v4 dhcp_v6 rfc2132 : Bool)
    (ip_list gw_list dns_list domains : Option (List Char))
    (hopen : w.fopen_errno (filepath interface) = none) :
    write_network_file w interface is_dhcp dhcp_v4 dhcp_v6 rfc2132 ip_list gw_list dns_list
        domains =
      (0, w.store (filepath interface)
        (write_sections interface is_dhcp dhcp_v4 dhcp_v6 rfc2132 ip_list gw_list dns_list
          domains).2) := by
  simp [write_network_file, hopen, write_sections_eq]

theorem write_network_file_of_fail (w : World) (interface : List Char)
    (is_dhcp dhcp_v4 dhcp_v6 rfc2132 : Bool)
    (ip_list gw_list dns_list domains : Option (List Char)) (e : Int)
    (hopen : w.fopen_errno (filepath interface) = some e) :
    write_network_file w interface is_dhcp dhcp_v4 dhcp_v6 rfc2132 ip_list gw_list dns_list
        domains = (-e, w) := by
  simp [write_network_file, hopen]

theorem parse_ifcfg_arg_eq (w : World) (interface config : List Char)
    (h : '=' ∉ interface) :
    parse_ifcfg_arg w (interface ++ '=' :: config) =
      match parse_config interface config with
      | none => (0, w)
      | some s =>
        (0, (write_network_file w s.interface s.is_dhcp s.dhcp_v4 s.dhcp_v6 s.rfc2132
          s.ip_list s.gw_list s.dns_list s.domains).2) := by
  have hc : strchr (interface ++ '=' :: config) '=' = true := by simp [strchr]
  simp only [parse_ifcfg_arg, hc, Bool.not_true, Bool.false_eq_true, if_false,
    before_append_cons h, after_append_cons h]

/-- C2: for every config body parse_ifcfg_arg calls the renderer with the spec
that parse_config derives, in which DHCP mode is selected exactly when the
trimmed field 0 starts with `dhcp`; the flags (dhcp_v4, dhcp_v6) are
(true, false) for `dhcp4`, (false, true) for `dhcp6` and (true, true) for
every other value, and one of the two is always set. -/
theorem parse_config_mode (w : World) (interface config : List Char) (hI : '=' ∉ interface) :
    ∃ s, parse_config interface config = some s ∧
      parse_ifcfg_arg w (interface ++ '=' :: config) =
        (0, (write_network_file w interface s.is_dhcp s.dhcp_v4 s.dhcp_v6 s.rfc2132
          s.ip_list s.gw_list s.dns_list s.domains).2) ∧
      (s.is_dhcp = true ↔ "dhcp".toList <+: trim_whitespace (before config ',')) ∧
      (s.dhcp_v4, s.dhcp_v6) =
        (if trim_whitespace (before config ',') = "dhcp4".toList then (true, false)
         else if trim_whitespace (before config ',') = "dhcp6".toList then (false, true)
         else (true, true)) ∧
      (s.dhcp_v4 = true ∨ s.dhcp_v6 = true) := by
  obtain ⟨s, hs, hi, h1, h2, h3⟩ := parse_config_flags interface config
  refine ⟨s, hs, ?_, h1, h2, h3⟩
  rw [parse_ifcfg_arg_eq w interface config hI, hs]
  simp only [hi]

theorem parse_config_mode_witness :
    ∃ s, parse_config "eth0".toList " dhcp6 , rfc2132".toList = some s ∧
      parse_ifcfg_arg empty_world "eth0= dhcp6 , rfc2132".toList =
        (0, (write_network_file empty_world "eth0".toList s.is_dhcp s.dhcp_v4 s.dhcp_v6
          s.rfc2132 s.ip_list s.gw_list s.dns_list s.domains).2) ∧
      s.is_dhcp = true ∧ (s.dhcp_v4, s.dhcp_v6) = (false, true) := by
  obtain ⟨s, hs, h0, h1, h2, _⟩ :=
    parse_config_mode empty_world "eth0".toList " dhcp6 , rfc2132".toList (by decide)
  exact ⟨s, hs, h0, h1.2 (by decide), by rw [h2]; decide⟩

/-- C4: for every interface identifier I without '=' and ':' the directive
value `I=dhcp` writes, at the path of I, a file whose whole content is the
[Match] section naming I, `DHCP=yes` and the two DHCP sections. -/
theorem dhcp_directive_file (w : World) (I : List Char) (h1 : '=' ∉ I) (h2 : ':' ∉ I)
    (hopen : w.fopen_errno (filepath I) = none) :
    parse_ifcfg_arg w (I ++ "=dhcp".toList) =
      (0, w.store
        ("/run/systemd/network/60-ifcfg-".toList ++ sanitize_filename I ++ ".network".toList)
        ("[Match]\nName=".toList ++ I ++
          ("\n\n[Network]\nDHCP=yes\n\n[DHCPv4]\nUseHostname=false\nUseDNS=true\nUseNTP=true\n" ++
            "\n[DHCPv6]\nUseHostname=false\nUseDNS=true\nUseNTP=true\n").toList)) := by
  have hp : parse_config I "dhcp".toList =
      some { interface := I, is_dhcp := true, dhcp_v4 := true, dhcp_v6 := true,
             rfc2132 := false, ip_list := none, gw_list := none, dns_list := none,
             domains := none } := rfl
  have hs : I ++ "=dhcp".toList = I ++ '=' :: "dhcp".toList := rfl
  rw [hs, parse_ifcfg_arg_eq w I _ h1, hp]
  simp only
  rw [write_network_file_eq _ _ _ _ _ _ _ _ _ _ hopen, write_sections_eq, ← filepath_eq]
  simp [match_section, h2, key_lines, domains_line, dhcp_line, dhcpv4_section, dhcpv6_section]

theorem dhcp_directive_file_witness :
    parse_ifcfg_arg empty_world "eth0=dhcp".toList =
      (0, empty_world.store "/run/systemd/network/60-ifcfg-eth0.network".toList
        ("[Match]\nName=eth0\n\n[Network]\nDHCP=yes\n\n[DHCPv4]\nUseHostname=false\n" ++
          "UseDNS=true\nUseNTP=true\n\n[DHCPv6]\nUseHostname=false\nUseDNS=true\n" ++
          "UseNTP=true\n").toList) :=
  dhcp_directive_file empty_world "eth0".toList (by decide) (by decide) rfl

/-! ## Trimmed strings and single tokens -/

theorem trim_end_of_last (str : List Char) (n : Nat)
    (h : isspace (str.getD n NUL) = false) : trim_end str n = n := by
  cases n with
  | zero => rfl
  | succ e =>
    unfold trim_end
    rw [h]
    rfl

theorem trim_whitespace_of_trimmed {a : List Char} (h : trimmed a) : trim_whitespace a = a := by
  obtain ⟨hh, hl⟩ := h
  cases a with
  | nil => simp at hh
  | cons c s =>
    have hc : isspace c = false := by simpa using hh
    have hd : (c :: s).dropWhile isspace = c :: s :=
      List.dropWhile_cons_of_neg (by simp [hc])
    have hlast : isspace ((c :: s).getD ((c :: s).length - 1) NUL) = false := by
      rw [List.getD_eq_getElem?_getD, ← List.getLast?_eq_getElem?]
      cases hg : (c :: s).getLast? with
      | none => simp [hg] at hl
      | some x => simpa [hg] using hl
    unfold trim_whitespace
    simp only [hd, List.isEmpty_cons, Bool.false_eq_true, if_false]
    rw [trim_end_of_last _ _ hlast]
    simp

theorem strtok_run_of_no_space (cur s : List Char) (h : ' ' ∉ s) :
    strtok_run cur s = if (cur ++ s).isEmpty then [] else [cur ++ s] := by
  induction s generalizing cur with
  | nil => simp [strtok_run]
  | cons c s ih =>
    have hc : c ≠ ' ' := fun e => h (by simp [e])
    have hs : ' ' ∉ s := fun e => h (by simp [e])
    simp [strtok_run, hc, ih _ hs]

theorem key_lines_single (key : List Char) {a : List Char} (hne : a ≠ []) (h : ' ' ∉ a) :
    key_lines key (some a) = key ++ "=".toList ++ a ++ "\n".toList := by
  simp [key_lines, strtok_tokens, strtok_run_of_no_space [] a h, hne]

theorem trimmed_ne_nil {a : List Char} (h : trimmed a) : a ≠ [] := by
  rintro rfl
  simp [trimmed] at h

/-! ## The sections of a DHCP spec -/

/-- C6: for every DHCP spec (one of the two flags set, no static list)
write_network_file prints, after the [Match] section, a [Network] section
with exactly one DHCP= line (yes, ipv4 or ipv6 by the flags), then a [DHCPv4]
section exactly when dhcp_v4 is set and then a [DHCPv6] section exactly when
dhcp_v6 is set, each with UseHostname=false, UseDNS=true, UseNTP=true in that
order and each after exactly one blank line. -/
theorem dhcp_spec_sections (w : World) (interface : List Char) (dhcp_v4 dhcp_v6 rfc2132 : Bool)
    (hflag : dhcp_v4 = true ∨ dhcp_v6 = true)
    (hopen : w.fopen_errno (filepath interface) = none) :
    write_network_file w interface true dhcp_v4 dhcp_v6 rfc2132 none none none none =
      (0, w.store (filepath interface)
        (match_section interface ++ "\n[Network]\n".toList ++
          (if dhcp_v4 = true ∧ dhcp_v6 = true then "DHCP=yes\n".toList
           else if dhcp_v4 = true then "DHCP=ipv4\n".toList
           else "DHCP=ipv6\n".toList) ++
          (if dhcp_v4 = true then
            "\n[DHCPv4]\nUseHostname=false\nUseDNS=true\nUseNTP=true\n".toList ++
              (if rfc2132 = true then "ClientIdentifier=mac\n".toList else [])
           else []) ++
          (if dhcp_v6 = true then
            "\n[DHCPv6]\nUseHostname=false\nUseDNS=true\nUseNTP=true\n".toList
           else []))) := by
  rw [write_network_file_eq _ _ _ _ _ _ _ _ _ _ hopen, write_sections_eq]
  cases dhcp_v4 <;> cases dhcp_v6 <;> cases rfc2132 <;>
    simp [key_lines, domains_line, dhcp_line, dhcpv4_section, dhcpv6_section] at hflag ⊢

theorem dhcp_spec_sections_witness :
    parse_config "00:11:22:33:44:55".toList "dhcp6".toList =
      some { interface := "00:11:22:33:44:55".toList, is_dhcp := true, dhcp_v4 := false,
             dhcp_v6 := true, rfc2132 := false, ip_list := none, gw_list := none,
             dns_list := none, domains := none } ∧
    write_network_file empty_world "00:11:22:33:44:55".toList true false true false
        none none none none =
      (0, empty_world.store "/run/systemd/network/60-ifcfg-00_11_22_33_44_55.network".toList
        ("[Match]\nName=*\nMACAddress=00:11:22:33:44:55\n\n[Network]\nDHCP=ipv6\n" ++
          "\n[DHCPv6]\nUseHostname=false\nUseDNS=true\nUseNTP=true\n").toList) :=
  ⟨rfl, dhcp_spec_sections empty_world "00:11:22:33:44:55".toList false true false
    (Or.inr rfl) rfl⟩

/-! ## The fields of a static config -/

theorem ite_lt_get_opt {α : Type} (l : List α) (i : Nat) :
    (if i < l.length then l[i]? else none) = l[i]? := by
  by_cases h : i < l.length
  · simp [h]
  · simp [h, List.getElem?_eq_none (Nat.le_of_not_lt h)]

theorem split_tokens_get_opt (config : List Char) (i : Nat) (h : i < MAX_TOKENS) :
    (split_tokens MAX_TOKENS config)[i]? = (fields config)[i]? := by
  rw [split_tokens_eq_take, List.getElem?_take_of_lt h]

theorem split_tokens_ne_nil (config : List Char) : split_tokens MAX_TOKENS config ≠ [] := by
  intro h
  have := split_tokens_head 9 config
  simp [MAX_TOKENS] at h
  simp [h] at this

theorem parse_config_static (interface config : List Char)
    (hmode : ¬ "dhcp".toList <+: trim_whitespace (before config ',')) :
    parse_config interface config =
      some { interface := interface, is_dhcp := false, dhcp_v4 := true, dhcp_v6 := true,
             rfc2132 := false, ip_list := (fields config)[0]?, gw_list := (fields config)[1]?,
             dns_list := (fields config)[2]?, domains := (fields config)[3]? } := by
  have h0 := split_tokens_get_opt config 0 (by decide)
  have h1 := split_tokens_get_opt config 1 (by decide)
  have h2 := split_tokens_get_opt config 2 (by decide)
  have h3 := split_tokens_get_opt config 3 (by decide)
  have hne := split_tokens_ne_nil config
  have hf0 := fields_head config
  unfold parse_config
  generalize split_tokens MAX_TOKENS config = tokens at h0 h1 h2 h3 hne ⊢
  cases tokens with
  | nil => exact absurd rfl hne
  | cons f0 tl =>
    have e0 : f0 = trim_whitespace (before config ',') := by
      rw [hf0] at h0
      simpa using h0
    have hd : strneq f0 "dhcp".toList 4 = false := by
      cases hx : strneq f0 "dhcp".toList 4 with
      | false => rfl
      | true => exact absurd ((strneq_iff_isPrefix f0 "dhcp".toList).1 hx) (e0 ▸ hmode)
    have hd2 : strneq f0 ['d', 'h', 'c', 'p'] 4 = false := hd
    simp only [List.length_cons, ge_iff_le, Nat.le_zero_eq, Nat.add_one_ne_zero, if_false,
      List.getD_cons_zero, hd, Bool.false_eq_true, ite_lt_get_opt (f0 :: tl), h0, h1, h2, h3,
      Nat.zero_add]
    have g1 : (if 1 < tl.length + 1 then (fields config)[1]? else none) =
        (fields config)[1]? := by
      rw [← h1]; exact ite_lt_get_opt (f0 :: tl) 1
    have g2 : (if 2 < tl.length + 1 then (fields config)[2]? else none) =
        (fields config)[2]? := by
      rw [← h2]; exact ite_lt_get_opt (f0 :: tl) 2
    have g3 : (if 3 < tl.length + 1 then (fields config)[3]? else none) =
        (fields config)[3]? := by
      rw [← h3]; exact ite_lt_get_opt (f0 :: tl) 3
    rw [g1, g2, g3, if_pos (Nat.succ_pos _)]

/-! ## The values handed to the directive parser -/

/-- The parse loop runs parse_ifcfg_arg on the values of main_values, in order. -/
theorem main_loop_eq_foldl (w : World) (arg : List Char) (in_quote : Bool) (rest : List Char) :
    main_loop w arg in_quote rest =
      (main_values arg in_quote rest).foldl (fun w v => (parse_ifcfg_arg w v).2) w := by
  induction rest generalizing w arg in_quote with
  | nil => simp [main_loop, main_values]
  | cons c rest ih =>
    simp only [main_loop, main_values]
    generalize (if (c == '"') = true then !in_quote else in_quote) = q
    by_cases ht : (rest.isEmpty || c == ' ' && !q) = true
    · rw [if_pos ht, if_pos ht, ih, List.foldl_append]
      by_cases hp : strneq (terminate arg c) "ifcfg=".toList 6 = true
      · rw [if_pos hp, if_pos hp]
        rfl
      · rw [if_neg hp, if_neg hp]
        rfl
    · rw [if_neg ht, if_neg ht, ih]

theorem strip_quotes_eq_spec_unquote (v : List Char) : strip_quotes v = spec_unquote v := by
  cases v with
  | nil => simp [strip_quotes, spec_unquote]
  | cons c rest =>
    by_cases hc : c = '"'
    · subst hc
      simp only [strip_quotes, spec_unquote, beq_self_eq_true, if_true, List.head?_cons,
        List.tail_cons, List.dropLast_eq_take]
      cases rest with
      | nil => simp
      | cons x xs =>
        have hlen : (x :: xs).length > 0 := by simp
        rw [List.getLast?_eq_getElem?, List.getD_eq_getElem?_getD]
        have hlt : (x :: xs).length - 1 < (x :: xs).length := by simp
        rw [List.getElem?_eq_getElem hlt]
        simp
    · simp [strip_quotes, spec_unquote, hc]

theorem main_call_eq_spec_value (arg : List Char) :
    (if strneq arg "ifcfg=".toList 6 = true then [strip_quotes (arg.drop 6)] else []) =
      (spec_value arg).toList := by
  have h := strneq_iff_isPrefix arg "ifcfg=".toList
  have h6 : "ifcfg=".toList.length = 6 := rfl
  rw [h6] at h
  by_cases hp : "ifcfg=".toList <+: arg
  · rw [if_pos (h.2 hp)]
    simp only [spec_value, if_pos hp, Option.toList, strip_quotes_eq_spec_unquote]
  · have : ¬ strneq arg "ifcfg=".toList 6 = true := fun e => hp (h.1 e)
    rw [if_neg this]
    simp only [spec_value, if_neg hp, Option.toList]

theorem spec_value_nil : spec_value [] = none := by decide

/-- Apart from a line whose last character is a space inside an open quote,
the values handed to parse_ifcfg_arg are those of the spec. -/
theorem main_values_eq_spec (arg : List Char) (in_quote : Bool) (rest : List Char)
    (h : ¬ (rest.getLast? = some ' ' ∧ quoted_after in_quote rest = true)) :
    main_values arg in_quote rest =
      if rest = [] then [] else (spec_tokens in_quote arg rest).filterMap spec_value := by
  induction rest generalizing arg in_quote with
  | nil => simp [main_values]
  | cons c rest ih =>
    unfold main_values spec_tokens
    simp only [main_call_eq_spec_value, terminate]
    cases rest with
    | nil =>
      by_cases hq : c = '"'
      · subst hq
        simp [main_values, spec_tokens]
        cases hv : spec_value (arg ++ ['"']) <;> simp [hv]
      · by_cases hs : c = ' '
        · subst hs
          cases in_quote with
          | false =>
            simp [main_values, spec_tokens, spec_value_nil]
            cases hv : spec_value arg <;> simp [hv, spec_value_nil]
          | true => simp [quoted_after] at h
        · simp [main_values, spec_tokens, hq, hs]
          cases hv : spec_value (arg ++ [c]) <;> simp [hv]
    | cons x xs =>
      have h2 : ∀ q, quoted_after q (c :: x :: xs) =
          quoted_after (if c = '"' then !q else q) (x :: xs) := by
        intro q; simp [quoted_after]
      have hlast : (c :: x :: xs).getLast? = (x :: xs).getLast? := by simp [List.getLast?]
      rw [hlast, h2] at h
      by_cases hq : c = '"'
      · subst hq
        simp only [if_true] at h
        have := ih (arg ++ ['"']) (!in_quote) h
        simp [this]
      · simp only [hq, if_false] at h
        by_cases hs : c = ' '
        · subst hs
          cases in_quote with
          | false =>
            have := ih [] false h
            simp [this]
            cases hv : spec_value arg <;> simp [hv, spec_value_nil]
          | true =>
            have := ih (arg ++ [' ']) true h
            simp [this]
        · have := ih (arg ++ [c]) in_quote h
          simp [hq, hs, this]

/-- Apart from a line whose last character is a space inside an open quote,
the values handed to parse_ifcfg_arg for a whole line are those of the spec. -/
theorem main_values_eq_spec_values (line : List Char)
    (h : ¬ (line.getLast? = some ' ' ∧ quoted_after false line = true)) :
    main_values [] false line = spec_values line := by
  rw [main_values_eq_spec [] false line h]
  rfl

/-- C1: on the line `ifcfg="a=b ` (an unterminated quote and a final space)
the parse loop hands `a=b` to parse_ifcfg_arg, while the token of the spec
runs to the end of the string and gives the value `a=b ` with its space. -/
theorem main_values_trailing_quoted_space :
    main_values [] false "ifcfg=\"a=b ".toList = ["a=b".toList] ∧
    spec_values "ifcfg=\"a=b ".toList = ["a=b ".toList] ∧
    main_values [] false "ifcfg=\"a=b ".toList ≠ spec_values "ifcfg=\"a=b ".toList := by
  decide

/-! ## The lines of a file -/

theorem cut_append_sep (sep : Char) (a b : List Char) :
    cut sep (a ++ sep :: b) = cut sep a ++ cut sep b := by
  induction a with
  | nil => simp [cut]
  | cons c a ih =>
    by_cases hc : c = sep
    · simp [cut, hc, ih]
    · simp only [List.cons_append, cut, hc, if_false, List.append_eq]
      rw [ih]
      cases h : cut sep a with
      | nil => exact absurd h (cut_ne_nil sep a)
      | cons p ps => simp

theorem cut_append_of_not_mem {sep : Char} {a : List Char} (h : sep ∉ a) (s : List Char) :
    ∃ hd tl, cut sep s = hd :: tl ∧ cut sep (a ++ s) = (a ++ hd) :: tl := by
  induction a with
  | nil =>
    cases hs : cut sep s with
    | nil => exact absurd hs (cut_ne_nil sep s)
    | cons hd tl => exact ⟨hd, tl, rfl, by simp [hs]⟩
  | cons c a ih =>
    have hc : c ≠ sep := fun e => h (by simp [e])
    have ha : sep ∉ a := fun e => h (by simp [e])
    obtain ⟨hd, tl, h1, h2⟩ := ih ha
    exact ⟨hd, tl, h1, by simp [cut, hc, h2]⟩

theorem mem_of_mem_cut {sep : Char} {s l : List Char} (h : l ∈ cut sep s) :
    ∀ c ∈ l, c ∈ s := by
  induction s generalizing l with
  | nil =>
    simp [cut] at h
    subst h
    simp
  | cons x s ih =>
    by_cases hx : x = sep
    · simp only [cut, hx, if_true, List.mem_cons] at h
      rcases h with h | h
      · subst h; simp
      · intro c hc
        exact List.mem_cons_of_mem _ (ih h c hc)
    · simp only [cut, hx, if_false] at h
      cases hs : cut sep s with
      | nil => exact absurd hs (cut_ne_nil sep s)
      | cons p ps =>
        simp only [hs, List.mem_cons] at h
        rcases h with h | h
        · subst h
          intro c hc
          rcases List.mem_cons.1 hc with e | e
          · simp [e]
          · exact List.mem_cons_of_mem _ (ih (by simp [hs]) c e)
        · intro c hc
          exact List.mem_cons_of_mem _ (ih (by simp [hs, h]) c hc)

theorem terminated_append {a b : List Char} (ha : terminated a) (hb : terminated b) :
    terminated (a ++ b) := by
  rcases hb with rfl | ⟨b2, rfl⟩
  · simpa using ha
  · exact Or.inr ⟨a ++ b2, by simp⟩

theorem file_lines_append {a b l : List Char} (ha : terminated a)
    (h : l ∈ file_lines (a ++ b)) : l ∈ file_lines a ∨ l ∈ file_lines b := by
  rcases ha with rfl | ⟨a2, rfl⟩
  · exact Or.inr (by simpa using h)
  · have e1 : a2 ++ ['\n'] ++ b = a2 ++ '\n' :: b := by simp
    have e2 : a2 ++ ['\n'] = a2 ++ '\n' :: [] := rfl
    rw [file_lines, e1, cut_append_sep, List.mem_append] at h
    rw [file_lines, e2, cut_append_sep, List.mem_append]
    rcases h with h | h
    · exact Or.inl (Or.inl h)
    · exact Or.inr h

theorem file_lines_line_append {u s l : List Char} (hu : '\n' ∉ u)
    (h : l ∈ file_lines (u ++ '\n' :: s)) : l = u ∨ l ∈ file_lines s := by
  rw [file_lines, cut_append_cons hu] at h
  simpa [file_lines] using h

theorem strtok_run_mem {cur s t : List Char} (h : t ∈ strtok_run cur s) :
    ∀ c ∈ t, c ∈ cur ∨ c ∈ s := by
  induction s generalizing cur with
  | nil =>
    by_cases hc : cur = []
    · simp [strtok_run, hc] at h
    · simp [strtok_run, hc] at h
      subst h
      intro c hc
      exact Or.inl hc
  | cons x s ih =>
    by_cases hx : x = ' '
    · subst hx
      by_cases hc : cur = []
      · simp only [strtok_run, hc, beq_self_eq_true, if_true, List.isEmpty_nil] at h
        intro c hcm
        rcases ih h c hcm with e | e
        · simp at e
        · exact Or.inr (List.mem_cons_of_mem _ e)
      · have hne : cur.isEmpty = false := by
          cases cur with
          | nil => exact absurd rfl hc
          | cons _ _ => rfl
        simp only [strtok_run, beq_self_eq_true, if_true, hne, Bool.false_eq_true, if_false,
          List.mem_cons] at h
        rcases h with h | h
        · subst h
          intro c hcm
          exact Or.inl hcm
        · intro c hcm
          rcases ih h c hcm with e | e
          · simp at e
          · exact Or.inr (List.mem_cons_of_mem _ e)
    · have hb : (x == ' ') = false := by simpa using hx
      simp only [strtok_run, hb, Bool.false_eq_true, if_false] at h
      intro c hcm
      rcases ih h c hcm with e | e
      · rcases List.mem_append.1 e with e | e
        · exact Or.inl e
        · exact Or.inr (by simp at e; simp [e])
      · exact Or.inr (List.mem_cons_of_mem _ e)

theorem strtok_tokens_mem {s t : List Char} (h : t ∈ strtok_tokens s) : ∀ c ∈ t, c ∈ s := by
  intro c hc
  rcases strtok_run_mem h c hc with e | e
  · simp at e
  · exact e

theorem trim_whitespace_mem {s : List Char} : ∀ c ∈ trim_whitespace s, c ∈ s := by
  intro c hc
  unfold trim_whitespace at hc
  simp only at hc
  split at hc
  · exact (List.dropWhile_sublist _).subset hc
  · exact (List.dropWhile_sublist _).subset (List.mem_of_mem_take hc)

theorem fields_mem {config f : List Char} (h : f ∈ fields config) : ∀ c ∈ f, c ∈ config := by
  simp only [fields, List.mem_map] at h
  obtain ⟨p, hp, rfl⟩ := h
  intro c hc
  exact mem_of_mem_cut hp c (trim_whitespace_mem c hc)

theorem fields_get_opt_mem {config f : List Char} {i : Nat} (h : (fields config)[i]? = some f) :
    ∀ c ∈ f, c ∈ config :=
  fields_mem (List.mem_iff_getElem?.2 ⟨i, h⟩)

theorem file_lines_append_right {a b l : List Char} (ha : terminated a)
    (h : l ∈ file_lines b) : l ∈ file_lines (a ++ b) := by
  rcases ha with rfl | ⟨a2, rfl⟩
  · simpa using h
  · have e1 : a2 ++ ['\n'] ++ b = a2 ++ '\n' :: b := by simp
    rw [file_lines, e1, cut_append_sep, List.mem_append]
    exact Or.inr h

theorem terminated_match_section (I : List Char) : terminated (match_section I) := by
  unfold match_section
  split
  · exact Or.inr ⟨"[Match]\nName=*\nMACAddress=".toList ++ I, rfl⟩
  · exact Or.inr ⟨"[Match]\nName=".toList ++ I, rfl⟩

/-- The lines of the [Match] section: the header, the Name= and MACAddress=
lines, and the further pieces of an identifier that holds newlines. -/
theorem file_lines_match_section {I rest l : List Char}
    (h : l ∈ file_lines (match_section I ++ rest)) :
    l = "[Match]".toList ∨
    (':' ∈ I ∧ (l = "Name=*".toList ∨ "MACAddress=".toList <+: l)) ∨
    (':' ∉ I ∧ "Name=".toList <+: l) ∨
    (∀ c ∈ l, c ∈ I) ∨
    l ∈ file_lines rest := by
  by_cases hI : ':' ∈ I
  · have e : match_section I ++ rest =
        "[Match]".toList ++ '\n' :: ("Name=*".toList ++ '\n' ::
          (("MACAddress=".toList ++ I) ++ '\n' :: rest)) := by
      simp [match_section, hI]
    rw [e] at h
    rcases file_lines_line_append (by decide) h with h | h
    · exact Or.inl h
    rcases file_lines_line_append (by decide) h with h | h
    · exact Or.inr (Or.inl ⟨hI, Or.inl h⟩)
    rw [file_lines, cut_append_sep, List.mem_append] at h
    rcases h with h | h
    · obtain ⟨hd, tl, h1, h2⟩ :=
        @cut_append_of_not_mem '\n' "MACAddress=".toList (by decide) I
      rw [h2, List.mem_cons] at h
      rcases h with h | h
      · exact Or.inr (Or.inl ⟨hI, Or.inr ⟨hd, h.symm⟩⟩)
      · exact Or.inr (Or.inr (Or.inr (Or.inl
          (@mem_of_mem_cut '\n' I l (by rw [h1]; exact List.mem_cons_of_mem _ h)))))
    · exact Or.inr (Or.inr (Or.inr (Or.inr h)))
  · have e : match_section I ++ rest =
        "[Match]".toList ++ '\n' :: (("Name=".toList ++ I) ++ '\n' :: rest) := by
      simp [match_section, hI]
    rw [e] at h
    rcases file_lines_line_append (by decide) h with h | h
    · exact Or.inl h
    rw [file_lines, cut_append_sep, List.mem_append] at h
    rcases h with h | h
    · obtain ⟨hd, tl, h1, h2⟩ :=
        @cut_append_of_not_mem '\n' "Name=".toList (by decide) I
      rw [h2, List.mem_cons] at h
      rcases h with h | h
      · exact Or.inr (Or.inr (Or.inl ⟨hI, ⟨hd, h.symm⟩⟩))
      · exact Or.inr (Or.inr (Or.inr (Or.inl
          (@mem_of_mem_cut '\n' I l (by rw [h1]; exact List.mem_cons_of_mem _ h)))))
    · exact Or.inr (Or.inr (Or.inr (Or.inr h)))

/-! ## DHCP directives and the rfc2132 option -/

theorem write_sections_dhcp (I : List Char) (dhcp_v4 dhcp_v6 rfc2132 : Bool) :
    (write_sections I true dhcp_v4 dhcp_v6 rfc2132 none none none none).2 =
      match_section I ++ dhcp_rest dhcp_v4 dhcp_v6 rfc2132 := by
  rw [write_sections_eq]
  simp [dhcp_rest, dhcp_tail, key_lines, domains_line]

theorem dhcp_rest_lines (dhcp_v4 dhcp_v6 rfc2132 : Bool) :
    ∀ l ∈ file_lines (dhcp_rest dhcp_v4 dhcp_v6 rfc2132),
      body_line l = true ∧
      (l = "ClientIdentifier=mac".toList → dhcp_v4 = true ∧ rfc2132 = true) := by
  cases dhcp_v4 <;> cases dhcp_v6 <;> cases rfc2132 <;> decide

theorem dhcp_rest_client_identifier (dhcp_v6 : Bool) :
    "ClientIdentifier=mac".toList ∈ file_lines (dhcp_rest true dhcp_v6 true) := by
  cases dhcp_v6 <;> decide

theorem parse_config_dhcp (I config : List Char)
    (hmode : "dhcp".toList <+: trim_whitespace (before config ',')) :
    parse_config I config =
      some { interface := I, is_dhcp := true,
             dhcp_v4 := decide (trim_whitespace (before config ',') ≠ "dhcp6".toList),
             dhcp_v6 := decide (trim_whitespace (before config ',') ≠ "dhcp4".toList),
             rfc2132 :=
               decide ("rfc2132".toList ∈ ((fields config).take MAX_TOKENS).tail),
             ip_list := none, gw_list := none, dns_list := none, domains := none } := by
  have hne := split_tokens_ne_nil config
  have h0 := split_tokens_get_opt config 0 (by decide)
  have hf0 := fields_head config
  have htk := split_tokens_eq_take MAX_TOKENS config
  unfold parse_config
  rw [← htk]
  generalize split_tokens MAX_TOKENS config = tokens at h0 hne ⊢
  cases tokens with
  | nil => exact absurd rfl hne
  | cons f0 tl =>
    have e0 : f0 = trim_whitespace (before config ',') := by
      rw [hf0] at h0
      simpa using h0
    rw [← e0] at hmode ⊢
    have hd : strneq f0 "dhcp".toList 4 = true := (strneq_iff_isPrefix f0 "dhcp".toList).2 hmode
    have hany : (tl.any fun t => strcmp_eq_zero t "rfc2132".toList) =
        decide ("rfc2132".toList ∈ tl) := by
      rw [Bool.eq_iff_iff]
      simp [List.any_eq_true, strcmp_eq_zero]
    simp only [List.length_cons, ge_iff_le, Nat.le_zero_eq, Nat.add_one_ne_zero, if_false,
      List.getD_cons_zero, hd, if_true, Nat.zero_add, List.drop_one, List.tail_cons, hany]
    by_cases h4 : f0 = "dhcp4".toList
    · subst h4
      simp [streq, strcmp_eq_zero]
    · by_cases h6 : f0 = "dhcp6".toList
      · subst h6
        simp [streq, strcmp_eq_zero]
      · have h4b : (f0 == "dhcp4".toList) = false := by simpa using h4
        have h6b : (f0 == "dhcp6".toList) = false := by simpa using h6
        simp only [streq, strcmp_eq_zero, h4b, h6b, Bool.false_eq_true, if_false, ne_eq, h4, h6,
          not_false_eq_true, decide_True]

/-- C7, as amended: for a directive whose mode field is `dhcp` or `dhcp4` the
file has a line `ClientIdentifier=mac` exactly when `rfc2132` is one of the
fields 1 to 9 (the fields kept by the cap of 10); the line is then the last
one of the [DHCPv4] section. -/
theorem rfc2132_client_identifier (w : World) (I config : List Char) (hI : '=' ∉ I)
    (hmode : trim_whitespace (before config ',') = "dhcp".toList ∨
      trim_whitespace (before config ',') = "dhcp4".toList)
    (hopen : w.fopen_errno (filepath I) = none) :
    ∃ content,
      parse_ifcfg_arg w (I ++ '=' :: config) =
        (0, w.store
          ("/run/systemd/network/60-ifcfg-".toList ++ sanitize_filename I ++
            ".network".toList) content) ∧
      ("ClientIdentifier=mac".toList ∈ file_lines content ↔
        "rfc2132".toList ∈ ((fields config).take 10).tail) ∧
      ("rfc2132".toList ∈ ((fields config).take 10).tail →
        content = match_section I ++ "\n[Network]\n".toList ++
          (if trim_whitespace (before config ',') = "dhcp".toList then "DHCP=yes\n".toList
           else "DHCP=ipv4\n".toList) ++
          ("\n[DHCPv4]\nUseHostname=false\nUseDNS=true\nUseNTP=true\n" ++
            "ClientIdentifier=mac\n").toList ++
          (if trim_whitespace (before config ',') = "dhcp".toList then
            "\n[DHCPv6]\nUseHostname=false\nUseDNS=true\nUseNTP=true\n".toList
           else [])) := by
  have hpre : "dhcp".toList <+: trim_whitespace (before config ',') := by
    rcases hmode with h | h
    · rw [h]
    · rw [h]; decide
  have hp := parse_config_dhcp I config hpre
  have hv4 : decide (trim_whitespace (before config ',') ≠ "dhcp6".toList) = true := by
    rcases hmode with h | h <;> simp [h]
  rw [hv4] at hp
  refine ⟨match_section I ++ dhcp_rest true
    (decide (trim_whitespace (before config ',') ≠ "dhcp4".toList))
    (decide ("rfc2132".toList ∈ ((fields config).take MAX_TOKENS).tail)), ?_, ?_, ?_⟩
  · rw [parse_ifcfg_arg_eq w I _ hI, hp]
    simp only
    rw [write_network_file_eq _ _ _ _ _ _ _ _ _ _ hopen, write_sections_dhcp, ← filepath_eq]
  · constructor
    · intro h
      rcases file_lines_match_section h with h | h | h | h | h
      · exact absurd h (by decide)
      · rcases h.2 with h | ⟨t, h⟩
        · exact absurd h (by decide)
        · exact absurd h (by simp)
      · obtain ⟨t, h⟩ := h.2
        exact absurd h (by simp)
      · exact absurd (h '=' (by decide)) hI
      · have := ((dhcp_rest_lines _ _ _ _ h).2 rfl).2
        simpa [MAX_TOKENS] using this
    · intro h
      have hr : decide ("rfc2132".toList ∈ ((fields config).take MAX_TOKENS).tail) = true := by
        simpa [MAX_TOKENS] using h
      rw [hr]
      exact file_lines_append_right (terminated_match_section I)
        (dhcp_rest_client_identifier _)
  · intro h
    have hr : decide ("rfc2132".toList ∈ ((fields config).take MAX_TOKENS).tail) = true := by
      simpa [MAX_TOKENS] using h
    rw [hr]
    rcases hmode with h | h <;> rw [h] <;>
      simp [dhcp_rest, dhcp_tail, dhcp_line, dhcpv4_section, dhcpv6_section]

theorem rfc2132_client_identifier_witness :
    ∃ content,
      parse_ifcfg_arg empty_world "eth0=dhcp4, rfc2132".toList =
        (0, empty_world.store "/run/systemd/network/60-ifcfg-eth0.network".toList content) ∧
      "ClientIdentifier=mac".toList ∈ file_lines content ∧
      content = ("[Match]\nName=eth0\n\n[Network]\nDHCP=ipv4\n\n[DHCPv4]\n" ++
        "UseHostname=false\nUseDNS=true\nUseNTP=true\nClientIdentifier=mac\n").toList := by
  obtain ⟨content, h1, h2, h3⟩ := rfc2132_client_identifier empty_world "eth0".toList
    "dhcp4, rfc2132".toList (by decide) (Or.inr (by decide)) rfl
  exact ⟨content, h1, h2.2 (by decide), h3 (by decide)⟩

/-- C7, as stated, fails: in `eth0=dhcp,,,,,,,,,,rfc2132` the mode field is
`dhcp` and `rfc2132` is a field after it (the eleventh), yet the file written
has no `ClientIdentifier=mac` line. -/
theorem rfc2132_beyond_cap :
    trim_whitespace (before "dhcp,,,,,,,,,,rfc2132".toList ',') = "dhcp".toList ∧
    "rfc2132".toList ∈ (fields "dhcp,,,,,,,,,,rfc2132".toList).tail ∧
    (parse_ifcfg_arg empty_world "eth0=dhcp,,,,,,,,,,rfc2132".toList).2.files
        "/run/systemd/network/60-ifcfg-eth0.network".toList =
      some ("[Match]\nName=eth0\n\n[Network]\nDHCP=yes\n\n[DHCPv4]\nUseHostname=false\n" ++
        "UseDNS=true\nUseNTP=true\n\n[DHCPv6]\nUseHostname=false\nUseDNS=true\n" ++
        "UseNTP=true\n").toList ∧
    "ClientIdentifier=mac".toList ∉ file_lines
      ("[Match]\nName=eth0\n\n[Network]\nDHCP=yes\n\n[DHCPv4]\nUseHostname=false\n" ++
        "UseDNS=true\nUseNTP=true\n\n[DHCPv6]\nUseHostname=false\nUseDNS=true\n" ++
        "UseNTP=true\n").toList := by
  decide

/-! ## The [Match] section and the lines after it -/

theorem write_sections_static (I : List Char)
    (ip_list gw_list dns_list domains : Option (List Char)) :
    (write_sections I false true true false ip_list gw_list dns_list domains).2 =
      match_section I ++ static_rest ip_list gw_list dns_list domains := by
  rw [write_sections_eq]
  simp [static_rest, static_tail]

theorem terminated_flatten_lines (f : List Char → List Char) (ts : List (List Char)) :
    terminated ((ts.map (fun t => f t ++ "\n".toList)).flatten) := by
  induction ts with
  | nil => exact Or.inl rfl
  | cons t ts ih =>
    simp only [List.map_cons, List.flatten_cons]
    exact terminated_append (Or.inr ⟨f t, rfl⟩) ih

theorem terminated_key_lines (key : List Char) (list : Option (List Char)) :
    terminated (key_lines key list) := by
  cases list with
  | none => exact Or.inl rfl
  | some l =>
    have := terminated_flatten_lines (fun t => key ++ "=".toList ++ t) (strtok_tokens l)
    simpa [key_lines] using this

theorem terminated_domains_line (domains : Option (List Char)) :
    terminated (domains_line domains) := by
  cases domains with
  | none => exact Or.inl rfl
  | some d =>
    unfold domains_line
    simp only
    split
    · exact Or.inl rfl
    · exact Or.inr ⟨"Domains=".toList ++ d, rfl⟩

theorem head_of_isPrefix {k : Char} {key l : List Char} (h : k :: key <+: l) :
    l.head? = some k := by
  obtain ⟨t, rfl⟩ := h
  rfl

theorem fields_take_mem {config f : List Char} {i : Nat} (hi : i < 4)
    (h : (fields config)[i]? = some f) : f ∈ (fields config).take 4 :=
  List.mem_iff_getElem?.2 ⟨i, by rw [List.getElem?_take_of_lt hi]; exact h⟩

theorem parse_config_isSome (interface config : List Char) :
    ∃ s, parse_config interface config = some s ∧ s.interface = interface := by
  by_cases hd : "dhcp".toList <+: trim_whitespace (before config ',')
  · exact ⟨_, parse_config_dhcp interface config hd, rfl⟩
  · exact ⟨_, parse_config_static interface config hd, rfl⟩

/-- C10: a directive writes a file exactly when its value has a '=' and the
file can be opened; the world is then the old one with the file at
`/run/systemd/network/60-ifcfg-` ++ sanitize (interface) ++ `.network`
replaced, the file at every other path being what it was; otherwise the world
is unchanged. -/
theorem directive_path (w : World) (arg : List Char) :
    (('=' ∈ arg ∧ w.fopen_errno (filepath (before arg '=')) = none) →
      ∃ content, (parse_ifcfg_arg w arg).2 =
        w.store ("/run/systemd/network/60-ifcfg-".toList ++
          sanitize_filename (before arg '=') ++ ".network".toList) content) ∧
    (¬ ('=' ∈ arg ∧ w.fopen_errno (filepath (before arg '=')) = none) →
      (parse_ifcfg_arg w arg).2 = w) ∧
    (∀ content p,
      p ≠ "/run/systemd/network/60-ifcfg-".toList ++ sanitize_filename (before arg '=') ++
        ".network".toList →
      (w.store ("/run/systemd/network/60-ifcfg-".toList ++
        sanitize_filename (before arg '=') ++ ".network".toList) content).files p =
        w.files p) := by
  obtain ⟨s, hs, hi⟩ := parse_config_isSome (before arg '=') (after arg '=')
  refine ⟨?_, ?_, ?_⟩
  · rintro ⟨hm, hopen⟩
    have hc : strchr arg '=' = true := strchr_eq_true.2 hm
    refine ⟨(write_sections s.interface s.is_dhcp s.dhcp_v4 s.dhcp_v6 s.rfc2132 s.ip_list
      s.gw_list s.dns_list s.domains).2, ?_⟩
    simp only [parse_ifcfg_arg, hc, Bool.not_true, Bool.false_eq_true, if_false, hs]
    rw [← hi] at hopen
    rw [write_network_file_eq _ _ _ _ _ _ _ _ _ _ hopen, ← filepath_eq, hi]
  · intro h
    by_cases hm : '=' ∈ arg
    · have hc : strchr arg '=' = true := strchr_eq_true.2 hm
      have hopen : w.fopen_errno (filepath s.interface) ≠ none := by
        rw [hi]
        exact fun e => h ⟨hm, e⟩
      obtain ⟨e, he⟩ := Option.ne_none_iff_exists'.1 hopen
      simp only [parse_ifcfg_arg, hc, Bool.not_true, Bool.false_eq_true, if_false, hs]
      rw [write_network_file_of_fail _ _ _ _ _ _ _ _ _ _ e he]
    · have hc : strchr arg '=' = false := strchr_eq_false.2 hm
      simp [parse_ifcfg_arg, hc]
  · intro content p hp
    simp only [World.store]
    rw [if_neg hp]

theorem directive_path_witness :
    ∃ content, (parse_ifcfg_arg empty_world "00:11:22:33:44:55=dhcp6".toList).2 =
      empty_world.store "/run/systemd/network/60-ifcfg-00_11_22_33_44_55.network".toList
        content :=
  (directive_path empty_world "00:11:22:33:44:55=dhcp6".toList).1 ⟨by decide, rfl⟩

/-! ## strtok_r -/

theorem strtok_run_cons_token (cur s : List Char)
    (h : cur ≠ [] ∨ ∃ c t, s = c :: t ∧ c ≠ ' ') :
    strtok_run cur s = (cur ++ before s ' ') :: strtok_run [] (after s ' ') := by
  induction s generalizing cur with
  | nil =>
    rcases h with h | ⟨c, t, h, _⟩
    · simp [strtok_run, before, after, h]
    · simp at h
  | cons x s ih =>
    by_cases hx : x = ' '
    · subst hx
      have hc : cur ≠ [] := by
        rcases h with h | ⟨c, t, h, hne⟩
        · exact h
        · simp only [List.cons.injEq] at h
          exact absurd h.1.symm hne
      simp [strtok_run, before, after, hc]
    · have hb : (x == ' ') = false := by simpa using hx
      have hb2 : (x != ' ') = true := by simpa using hx
      rw [strtok_run, hb]
      simp only [Bool.false_eq_true, if_false]
      rw [ih (cur ++ [x]) (Or.inl (by simp))]
      simp [before, after, hb2]

theorem strtok_run_nil_dropWhile (s : List Char) :
    strtok_run [] s = strtok_run [] (s.dropWhile (fun x => x == ' ')) := by
  induction s with
  | nil => rfl
  | cons x s ih =>
    by_cases hx : x = ' '
    · subst hx
      simp [strtok_run, ih]
    · have hb : (x == ' ') = false := by simpa using hx
      rw [List.dropWhile_cons_of_neg (by simp [hb])]

/-- The tokens of strtok_tokens are those that repeated calls of strtok_r give. -/
theorem strtok_tokens_eq_strtok_r (s : List Char) :
    strtok_tokens s =
      match strtok_r s with
      | none => []
      | some (token, saveptr) => token :: strtok_tokens saveptr := by
  unfold strtok_tokens strtok_r
  rw [strtok_run_nil_dropWhile]
  cases hs : s.dropWhile (fun x => x == ' ') with
  | nil => simp [strtok_run]
  | cons c t =>
    have hc : c ≠ ' ' := by
      have := List.head_dropWhile_not (fun x => x == ' ') s (by simp [hs])
      simpa [hs] using this
    rw [strtok_run_cons_token [] (c :: t) (Or.inr ⟨c, t, rfl, hc⟩)]
    simp

/-! ## The split of a directive at its first '=' -/

/-- A directive with a '=' returns 0 and, when the file can be opened, stores
what it renders at the path of its interface. -/
theorem parse_ifcfg_arg_store (w : World) (I config : List Char) (hI : '=' ∉ I) :
    parse_ifcfg_arg w (I ++ '=' :: config) =
      (0, match w.fopen_errno (filepath I) with
          | none => w.store (filepath I) (directive_content I config)
          | some _ => w) := by
  obtain ⟨s, hs, hi⟩ := parse_config_isSome I config
  rw [parse_ifcfg_arg_eq w I config hI, hs]
  simp only [directive_content, hs, hi]
  cases ho : w.fopen_errno (filepath I) with
  | none => rw [write_network_file_eq _ _ _ _ _ _ _ _ _ _ ho]
  | some e => rw [write_network_file_of_fail _ _ _ _ _ _ _ _ _ _ e ho]

theorem parse_ifcfg_arg_of_no_eq (w : World) (arg : List Char) (h : '=' ∉ arg) :
    parse_ifcfg_arg w arg = (-EINVAL, w) := by
  simp [parse_ifcfg_arg, strchr_eq_false.2 h]

theorem parse_ifcfg_arg_fst_of_eq (w : World) (arg : List Char) (h : '=' ∈ arg) :
    (parse_ifcfg_arg w arg).1 = 0 := by
  have e := before_append_after h
  rw [← e, parse_ifcfg_arg_store w _ _ (not_mem_before arg '=')]

/-- C11: parse_ifcfg_arg returns -EINVAL, leaving every file as it was, exactly
when the directive value has no '='; a value `I=body` in which I has no '=' is
split into the interface I (the text before the first '=') and the config
body (all of the text after it, later '=' included), and these are what is
parsed and rendered. -/
theorem parse_ifcfg_arg_split (w : World) (arg : List Char) :
    (((parse_ifcfg_arg w arg).1 = -EINVAL ∧ (parse_ifcfg_arg w arg).2 = w) ↔ '=' ∉ arg) ∧
    ((parse_ifcfg_arg w arg).1 = -EINVAL ↔ '=' ∉ arg) ∧
    (∀ I body, '=' ∉ I → arg = I ++ '=' :: body →
      before arg '=' = I ∧ after arg '=' = body ∧
      ∃ s, parse_config I body = some s ∧ s.interface = I ∧
        parse_ifcfg_arg w arg =
          (0, (write_network_file w I s.is_dhcp s.dhcp_v4 s.dhcp_v6 s.rfc2132 s.ip_list
            s.gw_list s.dns_list s.domains).2)) := by
  have hret : (parse_ifcfg_arg w arg).1 = -EINVAL ↔ '=' ∉ arg := by
    constructor
    · intro h hm
      rw [parse_ifcfg_arg_fst_of_eq w arg hm] at h
      exact absurd h (by decide)
    · intro h
      rw [parse_ifcfg_arg_of_no_eq w arg h]
  refine ⟨⟨fun h => hret.1 h.1, fun h => ⟨hret.2 h, ?_⟩⟩, hret, ?_⟩
  · rw [parse_ifcfg_arg_of_no_eq w arg h]
  · intro I body hI harg
    subst harg
    obtain ⟨s, hs, hi⟩ := parse_config_isSome I body
    refine ⟨before_append_cons hI body, after_append_cons hI body, s, hs, hi, ?_⟩
    rw [parse_ifcfg_arg_eq w I body hI, hs]
    simp only [hi]

theorem parse_ifcfg_arg_split_witness :
    (parse_ifcfg_arg empty_world "noequalshere".toList).1 = -EINVAL ∧
    (parse_ifcfg_arg empty_world "noequalshere".toList).2 = empty_world ∧
    before "eth0=a=b,c".toList '=' = "eth0".toList ∧
    after "eth0=a=b,c".toList '=' = "a=b,c".toList ∧
    ∃ s, parse_config "eth0".toList "a=b,c".toList = some s ∧ s.interface = "eth0".toList ∧
      parse_ifcfg_arg empty_world "eth0=a=b,c".toList =
        (0, (write_network_file empty_world "eth0".toList s.is_dhcp s.dhcp_v4 s.dhcp_v6
          s.rfc2132 s.ip_list s.gw_list s.dns_list s.domains).2) :=
  have h1 := (parse_ifcfg_arg_split empty_world "noequalshere".toList).1.2 (by decide)
  have h2 := (parse_ifcfg_arg_split empty_world "eth0=a=b,c".toList).2.2
    "eth0".toList "a=b,c".toList (by decide) rfl
  ⟨h1.1, h1.2, h2.1, h2.2.1, h2.2.2⟩

/-! ## An empty config body -/

/-- C14: the directive value `eth0=`, whose config body is empty, returns 0 but
is not a no-op: the field list holds one (empty) field, the early return of
line 232 is not taken, and a file with the [Match] section and an empty
[Network] section is written where there was none. -/
theorem empty_config_writes_file :
    split_tokens MAX_TOKENS [] = [[]] ∧
    (parse_ifcfg_arg empty_world "eth0=".toList).1 = 0 ∧
    empty_world.files "/run/systemd/network/60-ifcfg-eth0.network".toList = none ∧
    (parse_ifcfg_arg empty_world "eth0=".toList).2.files
        "/run/systemd/network/60-ifcfg-eth0.network".toList =
      some "[Match]\nName=eth0\n\n[Network]\n".toList := by
  decide

theorem empty_config_content (I : List Char) :
    directive_content I [] = match_section I ++ "\n[Network]\n".toList := by
  have hp := parse_config_static I [] (by decide)
  simp only [directive_content, hp]
  rw [write_sections_static]
  rfl

/-! ## Writes to the same path -/

theorem store_store (w : World) (p a b : List Char) :
    (w.store p a).store p b = w.store p b := by
  simp only [World.store]
  congr 1
  funext q
  by_cases h : q = p <;> simp [h]

theorem store_fopen_errno (w : World) (p a : List Char) :
    (w.store p a).fopen_errno = w.fopen_errno := rfl

theorem main_eq_main_loop (w : World) (line : List Char) (hmk : w.mkdir_errno = none) :
    main w (some line) = (0, main_loop w [] false line) := by
  simp [main, hmk]

/-- The run of a line that holds two directives, when both files can be opened. -/
theorem main_loop_two_directives (w : World) (line I1 c1 I2 c2 : List Char)
    (h1 : '=' ∉ I1) (h2 : '=' ∉ I2)
    (hline : main_values [] false line = [I1 ++ '=' :: c1, I2 ++ '=' :: c2])
    (ho1 : w.fopen_errno (filepath I1) = none) (ho2 : w.fopen_errno (filepath I2) = none) :
    main_loop w [] false line =
      (w.store (filepath I1) (directive_content I1 c1)).store (filepath I2)
        (directive_content I2 c2) := by
  rw [main_loop_eq_foldl, hline]
  simp only [List.foldl_cons, List.foldl_nil]
  rw [parse_ifcfg_arg_store w I1 c1 h1, ho1]
  simp only
  rw [parse_ifcfg_arg_store _ I2 c2 h2, store_fopen_errno, ho2]

/-- C16: when the values handed to the parser for a line are two directives
`I=c1` and `I=c2` for the same interface, the run leaves the world that the
later directive alone leaves; if the file can be opened it holds exactly what
the later directive renders, which depends on I and c2 only. -/
theorem last_write_wins (w : World) (line I c1 c2 : List Char)
    (hmk : w.mkdir_errno = none) (hI : '=' ∉ I)
    (hline : main_values [] false line = [I ++ '=' :: c1, I ++ '=' :: c2]) :
    main w (some line) = (0, (parse_ifcfg_arg w (I ++ '=' :: c2)).2) ∧
    (w.fopen_errno (filepath I) = none →
      (main w (some line)).2.files (filepath I) = some (directive_content I c2)) := by
  have hmain : main w (some line) = (0, (parse_ifcfg_arg w (I ++ '=' :: c2)).2) := by
    rw [main_eq_main_loop w line hmk, main_loop_eq_foldl, hline]
    simp only [List.foldl_cons, List.foldl_nil]
    rw [parse_ifcfg_arg_store w I c1 hI, parse_ifcfg_arg_store w I c2 hI]
    cases ho : w.fopen_errno (filepath I) with
    | none =>
      simp only
      rw [parse_ifcfg_arg_store _ I c2 hI, store_fopen_errno, ho]
      simp only [store_store]
    | some e =>
      simp only
      rw [parse_ifcfg_arg_store _ I c2 hI, ho]
  refine ⟨hmain, fun ho => ?_⟩
  rw [hmain, parse_ifcfg_arg_store w I c2 hI, ho]
  simp [World.store]

theorem last_write_wins_witness :
    (main empty_world (some "ifcfg=eth0=10.0.0.2/24,10.0.0.1 ifcfg=eth0=dhcp6".toList)).2.files
        "/run/systemd/network/60-ifcfg-eth0.network".toList =
      some ("[Match]\nName=eth0\n\n[Network]\nDHCP=ipv6\n\n[DHCPv6]\nUseHostname=false\n" ++
        "UseDNS=true\nUseNTP=true\n").toList :=
  (last_write_wins empty_world "ifcfg=eth0=10.0.0.2/24,10.0.0.1 ifcfg=eth0=dhcp6".toList
    "eth0".toList "10.0.0.2/24,10.0.0.1".toList "dhcp6".toList rfl (by decide) (by decide)).2 rfl

/-! ## The output path -/

theorem not_mem_sanitize_filename (I : List Char) : '/' ∉ sanitize_filename I := by
  rw [sanitize_filename_eq_map]
  intro h
  obtain ⟨c, _, hc⟩ := List.mem_map.1 h
  by_cases hk : (isalnum c || c == '-' || c == '.') = true
  · rw [if_pos hk] at hc
    subst hc
    exact absurd hk (by decide)
  · rw [if_neg hk] at hc
    exact absurd hc (by decide)

/-- The world after a directive: unchanged, or the old one with the file at the
path of the interface replaced. -/
theorem parse_ifcfg_arg_world (w : World) (arg : List Char) :
    (parse_ifcfg_arg w arg).2 = w ∨
    ∃ content, (parse_ifcfg_arg w arg).2 = w.store (filepath (before arg '=')) content := by
  by_cases h : '=' ∈ arg
  · have e := before_append_after h
    have hs := parse_ifcfg_arg_store w (before arg '=') (after arg '=') (not_mem_before arg '=')
    rw [e] at hs
    rw [hs]
    cases w.fopen_errno (filepath (before arg '=')) with
    | none => exact Or.inr ⟨_, rfl⟩
    | some e => exact Or.inl rfl
  · rw [parse_ifcfg_arg_of_no_eq w arg h]
    exact Or.inl rfl

/-- C19: whatever characters an interface identifier holds, its sanitized name
has no '/', so that the path of its file is `/run/systemd/network/` followed
by a single file name without '/', which starts with `60-ifcfg-` and ends with
`.network`; and a path at which a directive changes a file is of this form. -/
theorem sanitized_path_in_output_dir (I : List Char) :
    '/' ∉ sanitize_filename I ∧
    filepath I = "/run/systemd/network/".toList ++
      ("60-ifcfg-".toList ++ sanitize_filename I ++ ".network".toList) ∧
    '/' ∉ "60-ifcfg-".toList ++ sanitize_filename I ++ ".network".toList ∧
    "60-ifcfg-".toList <+: "60-ifcfg-".toList ++ sanitize_filename I ++ ".network".toList ∧
    ".network".toList <:+ "60-ifcfg-".toList ++ sanitize_filename I ++ ".network".toList ∧
    (∀ (w : World) (arg p : List Char), (parse_ifcfg_arg w arg).2.files p ≠ w.files p →
      ∃ name, p = "/run/systemd/network/".toList ++ name ∧ '/' ∉ name ∧
        "60-ifcfg-".toList <+: name ∧ ".network".toList <:+ name) := by
  have hname : ∀ J : List Char,
      '/' ∉ "60-ifcfg-".toList ++ sanitize_filename J ++ ".network".toList := by
    intro J h
    rcases List.mem_append.1 h with h | h
    · rcases List.mem_append.1 h with h | h
      · exact absurd h (by decide)
      · exact not_mem_sanitize_filename J h
    · exact absurd h (by decide)
  have hpath : ∀ J : List Char, filepath J = "/run/systemd/network/".toList ++
      ("60-ifcfg-".toList ++ sanitize_filename J ++ ".network".toList) := by
    intro J
    simp [filepath, OUTPUT_DIR, FILE_PREFIX]
  refine ⟨not_mem_sanitize_filename I, hpath I, hname I, ⟨_, (List.append_assoc _ _ _).symm⟩,
    ⟨_, rfl⟩, ?_⟩
  intro w arg p hp
  rcases parse_ifcfg_arg_world w arg with h | ⟨content, h⟩
  · rw [h] at hp
    exact absurd rfl hp
  · rw [h] at hp
    have hpe : p = filepath (before arg '=') := by
      by_contra hne
      exact hp (by simp [World.store, hne])
    exact ⟨_, hpe.trans (hpath _), hname _, ⟨_, (List.append_assoc _ _ _).symm⟩, ⟨_, rfl⟩⟩

theorem sanitized_path_in_output_dir_witness :
    sanitize_filename "../../etc/x".toList = ".._.._etc_x".toList ∧
    filepath "../../etc/x".toList =
      "/run/systemd/network/60-ifcfg-.._.._etc_x.network".toList ∧
    (∀ p : List Char,
      (parse_ifcfg_arg empty_world "../../etc/x=dhcp".toList).2.files p ≠ empty_world.files p →
      ∃ name, p = "/run/systemd/network/".toList ++ name ∧ '/' ∉ name ∧
        "60-ifcfg-".toList <+: name ∧ ".network".toList <:+ name) :=
  ⟨rfl, (sanitized_path_in_output_dir "../../etc/x".toList).2.1,
   fun p => (sanitized_path_in_output_dir "../../etc/x".toList).2.2.2.2.2 empty_world
     "../../etc/x=dhcp".toList p⟩

/-! ## Two interfaces with one path -/

/-- C20: sanitize_filename is not injective: `eth*` and `eth?`, and `a:b` and
`a_b`, have the same output path; on the line `ifcfg=eth*=dhcp ifcfg=eth?=dhcp4`
a single file exists after the run, it holds what the later directive renders,
and its [Match] section names `eth?` and not `eth*`. -/
theorem sanitize_filename_collision :
    "eth*".toList ≠ "eth?".toList ∧
    sanitize_filename "eth*".toList = sanitize_filename "eth?".toList ∧
    filepath "eth*".toList = filepath "eth?".toList ∧
    "a:b".toList ≠ "a_b".toList ∧
    filepath "a:b".toList = filepath "a_b".toList ∧
    (main empty_world (some "ifcfg=eth*=dhcp ifcfg=eth?=dhcp4".toList)).2.files
        "/run/systemd/network/60-ifcfg-eth_.network".toList =
      some ("[Match]\nName=eth?\n\n[Network]\nDHCP=ipv4\n\n[DHCPv4]\nUseHostname=false\n" ++
        "UseDNS=true\nUseNTP=true\n").toList ∧
    directive_content "eth?".toList "dhcp4".toList =
      ("[Match]\nName=eth?\n\n[Network]\nDHCP=ipv4\n\n[DHCPv4]\nUseHostname=false\n" ++
        "UseDNS=true\nUseNTP=true\n").toList ∧
    "Name=eth*".toList ∉ file_lines
      ("[Match]\nName=eth?\n\n[Network]\nDHCP=ipv4\n\n[DHCPv4]\nUseHostname=false\n" ++
        "UseDNS=true\nUseNTP=true\n").toList ∧
    (∀ p : List Char,
      (main empty_world (some "ifcfg=eth*=dhcp ifcfg=eth?=dhcp4".toList)).2.files p ≠ none →
      p = "/run/systemd/network/60-ifcfg-eth_.network".toList) := by
  refine ⟨by decide, by decide, by decide, by decide, by decide, by decide, by decide,
    by decide, ?_⟩
  intro p hp
  rw [main_eq_main_loop _ _ rfl,
    main_loop_two_directives empty_world _ "eth*".toList "dhcp".toList "eth?".toList
      "dhcp4".toList (by decide) (by decide) (by decide) rfl rfl] at hp
  by_contra hne
  have e1 : filepath "eth?".toList = "/run/systemd/network/60-ifcfg-eth_.network".toList := by
    decide
  have e2 : filepath "eth*".toList = "/run/systemd/network/60-ifcfg-eth_.network".toList := by
    decide
  simp only [World.store, e1, e2, if_neg hne] at hp
  exact hp rfl

/-! ## The command line read from the file -/

/-- C18: the newline that getline leaves at the end of the first line of
`/proc/cmdline` is not removed: for the file `ifcfg="eth0=dhcp4"` followed by
a newline the value handed to parse_ifcfg_arg is `eth0=dhcp4"` followed by the
newline, with its closing quote, where the override string gives `eth0=dhcp4`;
the file written has `DHCP=yes` and both DHCP sections instead of `DHCP=ipv4`
and the [DHCPv4] section. The same holds of the values for `ifcfg="eth0=dhcp"`. -/
theorem cmdline_file_newline_kept :
    getline "ifcfg=\"eth0=dhcp4\"\n".toList = some "ifcfg=\"eth0=dhcp4\"\n".toList ∧
    main_values [] false "ifcfg=\"eth0=dhcp4\"\n".toList = ["eth0=dhcp4\"\n".toList] ∧
    main_values [] false "ifcfg=\"eth0=dhcp4\"".toList = ["eth0=dhcp4".toList] ∧
    main_values [] false "ifcfg=\"eth0=dhcp\"\n".toList = ["eth0=dhcp\"\n".toList] ∧
    main_values [] false "ifcfg=\"eth0=dhcp\"".toList = ["eth0=dhcp".toList] ∧
    (main (cmdline_world "ifcfg=\"eth0=dhcp4\"\n".toList) none).2.files
        "/run/systemd/network/60-ifcfg-eth0.network".toList =
      some ("[Match]\nName=eth0\n\n[Network]\nDHCP=yes\n\n[DHCPv4]\nUseHostname=false\n" ++
        "UseDNS=true\nUseNTP=true\n\n[DHCPv6]\nUseHostname=false\nUseDNS=true\n" ++
        "UseNTP=true\n").toList ∧
    (main (cmdline_world "ifcfg=\"eth0=dhcp4\"\n".toList)
        (some "ifcfg=\"eth0=dhcp4\"".toList)).2.files
        "/run/systemd/network/60-ifcfg-eth0.network".toList =
      some ("[Match]\nName=eth0\n\n[Network]\nDHCP=ipv4\n\n[DHCPv4]\nUseHostname=false\n" ++
        "UseDNS=true\nUseNTP=true\n").toList := by
  decide

/-! ## The field list -/

theorem take_trim_end (t : List Char) (c : Char) (r : List Char) (ht : t = c :: r)
    (hc : isspace c = false) (n : Nat) (hn : n < t.length) :
    t.take (trim_end t n + 1) = ((t.take (n + 1)).reverse.dropWhile isspace).reverse := by
  induction n with
  | zero =>
    subst ht
    simp [trim_end, hc]
  | succ e ih =>
    have he : e < t.length := Nat.lt_of_succ_lt hn
    have hget : t.getD (e + 1) NUL = t[e + 1] := by
      rw [List.getD_eq_getElem?_getD, List.getElem?_eq_getElem hn]
      rfl
    have htake : t.take (e + 1 + 1) = t.take (e + 1) ++ [t[e + 1]] := by
      rw [List.take_succ, List.getElem?_eq_getElem hn]
      rfl
    rw [htake, List.reverse_append, List.reverse_singleton, List.singleton_append]
    unfold trim_end
    rw [hget]
    by_cases hs : isspace t[e + 1] = true
    · rw [if_pos hs, List.dropWhile_cons_of_pos hs]
      exact ih he
    · rw [if_neg hs, List.dropWhile_cons_of_neg hs, htake]
      simp

/-- trim_whitespace removes the leading and the trailing whitespace. -/
theorem trim_whitespace_eq_strip (s : List Char) : trim_whitespace s = strip_whitespace s := by
  unfold trim_whitespace strip_whitespace
  simp only
  cases ht : s.dropWhile isspace with
  | nil => simp
  | cons c r =>
    have hc : isspace c = false := by
      have := List.head_dropWhile_not isspace s (by simp [ht])
      simpa [ht] using this
    simp only [List.isEmpty_cons, Bool.false_eq_true, if_false]
    have h := take_trim_end (c :: r) c r rfl hc ((c :: r).length - 1) (by simp)
    rw [h]
    have hl : (c :: r).length - 1 + 1 = (c :: r).length := by simp
    rw [hl, List.take_length]

theorem take_min_length {α : Type} (l : List α) (k : Nat) :
    l.take (min l.length k) = l.take k := by
  by_cases h : l.length ≤ k
  · rw [Nat.min_eq_left h, List.take_length, List.take_of_length_le h]
  · rw [Nat.min_eq_right (Nat.le_of_lt (Nat.lt_of_not_le h))]

theorem parse_config_congr (I c1 c2 : List Char)
    (h : split_tokens MAX_TOKENS c1 = split_tokens MAX_TOKENS c2) :
    parse_config I c1 = parse_config I c2 := by
  simp only [parse_config, h]

theorem parse_ifcfg_arg_congr (w : World) (I c1 c2 : List Char) (hI : '=' ∉ I)
    (h : parse_config I c1 = parse_config I c2) :
    parse_ifcfg_arg w (I ++ '=' :: c1) = parse_ifcfg_arg w (I ++ '=' :: c2) := by
  rw [parse_ifcfg_arg_eq w I c1 hI, parse_ifcfg_arg_eq w I c2 hI, h]

/-- C13: the field list that parse_ifcfg_arg builds from a config body is made
of the first min (n, 10) of the n pieces between the commas of the body, each
with its leading and trailing whitespace removed; it has min (n, 10) entries,
never more than 10; and a body with the same first 10 pieces gives the same
result, without error, whatever its pieces from the 11th on. -/
theorem field_list_spec (config : List Char) :
    split_tokens MAX_TOKENS config =
      ((cut ',' config).take (min (cut ',' config).length 10)).map strip_whitespace ∧
    (split_tokens MAX_TOKENS config).length = min (cut ',' config).length 10 ∧
    (split_tokens MAX_TOKENS config).length ≤ 10 ∧
    (∀ (w : World) (I config2 : List Char), '=' ∉ I →
      (cut ',' config2).take 10 = (cut ',' config).take 10 →
      parse_ifcfg_arg w (I ++ '=' :: config2) = parse_ifcfg_arg w (I ++ '=' :: config) ∧
      (parse_ifcfg_arg w (I ++ '=' :: config)).1 = 0) := by
  have hst : ∀ c : List Char, split_tokens MAX_TOKENS c =
      ((cut ',' c).take 10).map strip_whitespace := by
    intro c
    rw [split_tokens_eq_take, fields, List.map_take]
    have : trim_whitespace = strip_whitespace := funext trim_whitespace_eq_strip
    rw [this]
    rfl
  refine ⟨by rw [take_min_length]; exact hst config, ?_, ?_, ?_⟩
  · rw [hst config, List.length_map, List.length_take, Nat.min_comm]
  · rw [hst config, List.length_map, List.length_take]
    exact Nat.min_le_left _ _
  · intro w I config2 hI h
    refine ⟨parse_ifcfg_arg_congr w I _ _ hI (parse_config_congr I _ _ ?_), ?_⟩
    · rw [hst config2, hst config, h]
    · rw [parse_ifcfg_arg_store w I config hI]

theorem field_list_spec_witness :
    split_tokens MAX_TOKENS " a, b ,c,d,e,f,g,h,i,j,k,l".toList =
      ["a", "b", "c", "d", "e", "f", "g", "h", "i", "j"].map String.toList ∧
    parse_ifcfg_arg empty_world "eth0= a, b ,c,d,e,f,g,h,i,j,rfc2132".toList =
      parse_ifcfg_arg empty_world "eth0= a, b ,c,d,e,f,g,h,i,j,k,l".toList ∧
    (parse_ifcfg_arg empty_world "eth0= a, b ,c,d,e,f,g,h,i,j,k,l".toList).1 = 0 :=
  have h := field_list_spec " a, b ,c,d,e,f,g,h,i,j,k,l".toList
  have h2 := h.2.2.2 empty_world "eth0".toList " a, b ,c,d,e,f,g,h,i,j,rfc2132".toList
    (by decide) (by decide)
  ⟨h.1, h2.1, h2.2⟩

/-! ## What the file of a DHCP directive depends on -/

theorem static_line_head {l : List Char} (h : static_line l) :
    l.head? = some 'A' ∨ l.head? = some 'G' ∨ l.head? = some 'D' := by
  rcases h with h | h | h | h
  · exact Or.inl (head_of_isPrefix h)
  · exact Or.inr (Or.inl (head_of_isPrefix h))
  · exact Or.inr (Or.inr (head_of_isPrefix h))
  · exact Or.inr (Or.inr (head_of_isPrefix h))

theorem static_line_mem_eq {l : List Char} (h : static_line l) : '=' ∈ l := by
  rcases h with ⟨t, rfl⟩ | ⟨t, rfl⟩ | ⟨t, rfl⟩ | ⟨t, rfl⟩ <;> simp

theorem dhcp_rest_static_line (dhcp_v4 dhcp_v6 rfc2132 : Bool) :
    ∀ l ∈ file_lines (dhcp_rest dhcp_v4 dhcp_v6 rfc2132),
      ¬ "Address=".toList <+: l ∧ ¬ "Gateway=".toList <+: l ∧ ¬ "DNS=".toList <+: l ∧
        ¬ "Domains=".toList <+: l := by
  cases dhcp_v4 <;> cases dhcp_v6 <;> cases rfc2132 <;> decide

theorem directive_content_dhcp (I config : List Char)
    (hmode : "dhcp".toList <+: trim_whitespace (before config ',')) :
    directive_content I config =
      match_section I ++ dhcp_rest
        (decide (trim_whitespace (before config ',') ≠ "dhcp6".toList))
        (decide (trim_whitespace (before config ',') ≠ "dhcp4".toList))
        (decide ("rfc2132".toList ∈ ((fields config).take MAX_TOKENS).tail)) := by
  simp only [directive_content, parse_config_dhcp I config hmode]
  rw [write_sections_dhcp]

/-- A line of one of the four static kinds that stands in a file does not come
from the [Match] section of an interface without '='. -/
theorem match_section_static_line {I rest l : List Char} (hI : '=' ∉ I)
    (hl : l ∈ file_lines (match_section I ++ rest)) (hs : static_line l) :
    l ∈ file_lines rest := by
  rcases file_lines_match_section hl with h | h | h | h | h
  · subst h
    rcases static_line_head hs with e | e | e <;> simp at e
  · rcases h.2 with h | h
    · subst h
      rcases static_line_head hs with e | e | e <;> simp at e
    · have hm := head_of_isPrefix h
      rcases static_line_head hs with e | e | e <;> rw [hm] at e <;> simp at e
  · have hm := head_of_isPrefix h.2
    rcases static_line_head hs with e | e | e <;> rw [hm] at e <;> simp at e
  · exact absurd (h '=' (static_line_mem_eq hs)) hI
  · exact h

theorem dhcp_content_no_static_line (I config : List Char) (hI : '=' ∉ I)
    (hmode : "dhcp".toList <+: trim_whitespace (before config ',')) :
    ∀ l ∈ file_lines (directive_content I config), ¬ static_line l := by
  intro l hl hs
  rw [directive_content_dhcp I config hmode] at hl
  have := dhcp_rest_static_line _ _ _ l (match_section_static_line hI hl hs)
  rcases hs with e | e | e | e
  · exact this.1 e
  · exact this.2.1 e
  · exact this.2.2.1 e
  · exact this.2.2.2 e

/-- The file of a directive holds what the directive renders. -/
theorem parse_ifcfg_arg_file (w : World) (I config : List Char) (hI : '=' ∉ I)
    (hopen : w.fopen_errno (filepath I) = none) :
    (parse_ifcfg_arg w (I ++ '=' :: config)).2.files (filepath I) =
      some (directive_content I config) := by
  rw [parse_ifcfg_arg_store w I config hI, hopen]
  simp [World.store]

/-- C17: two DHCP config bodies for the same interface that have the same
field 0 and agree on whether `rfc2132` is among the retained fields after
field 0 give the same result and render the same text, whatever their other
fields; the file written holds this text, and it has no line that starts with
`Address=`, `Gateway=`, `DNS=` or `Domains=`. -/
theorem dhcp_file_depends (w : World) (I c1 c2 : List Char) (hI : '=' ∉ I)
    (hmode : "dhcp".toList <+: trim_whitespace (before c1 ','))
    (hf0 : trim_whitespace (before c1 ',') = trim_whitespace (before c2 ','))
    (hrfc : "rfc2132".toList ∈ ((fields c1).take 10).tail ↔
      "rfc2132".toList ∈ ((fields c2).take 10).tail) :
    parse_ifcfg_arg w (I ++ '=' :: c1) = parse_ifcfg_arg w (I ++ '=' :: c2) ∧
    directive_content I c1 = directive_content I c2 ∧
    (w.fopen_errno (filepath I) = none →
      (parse_ifcfg_arg w (I ++ '=' :: c1)).2.files (filepath I) =
        some (directive_content I c1)) ∧
    (∀ l ∈ file_lines (directive_content I c1), ¬ static_line l) := by
  have hmode2 : "dhcp".toList <+: trim_whitespace (before c2 ',') := hf0 ▸ hmode
  have hp : parse_config I c1 = parse_config I c2 := by
    rw [parse_config_dhcp I c1 hmode, parse_config_dhcp I c2 hmode2, hf0]
    have : decide ("rfc2132".toList ∈ ((fields c1).take MAX_TOKENS).tail) =
        decide ("rfc2132".toList ∈ ((fields c2).take MAX_TOKENS).tail) :=
      decide_eq_decide.2 hrfc
    rw [this]
  exact ⟨parse_ifcfg_arg_congr w I c1 c2 hI hp, by simp only [directive_content, hp],
    parse_ifcfg_arg_file w I c1 hI, dhcp_content_no_static_line I c1 hI hmode⟩

theorem dhcp_file_depends_witness :
    parse_ifcfg_arg empty_world "eth0=dhcp4, rfc2132 ,foo".toList =
      parse_ifcfg_arg empty_world "eth0=dhcp4,bar,,rfc2132".toList ∧
    directive_content "eth0".toList "dhcp4, rfc2132 ,foo".toList =
      directive_content "eth0".toList "dhcp4,bar,,rfc2132".toList ∧
    (parse_ifcfg_arg empty_world "eth0=dhcp4, rfc2132 ,foo".toList).2.files
        "/run/systemd/network/60-ifcfg-eth0.network".toList =
      some (directive_content "eth0".toList "dhcp4, rfc2132 ,foo".toList) ∧
    (∀ l ∈ file_lines (directive_content "eth0".toList "dhcp4, rfc2132 ,foo".toList),
      ¬ static_line l) :=
  have h := dhcp_file_depends empty_world "eth0".toList "dhcp4, rfc2132 ,foo".toList
    "dhcp4,bar,,rfc2132".toList (by decide) (by decide) (by decide) (by decide)
  ⟨h.1, h.2.1, h.2.2.1 rfl, h.2.2.2⟩

/-! ## A line of unquoted tokens -/

theorem spec_tokens_append_unquoted (cur t rest : List Char) (ht : unquoted t) :
    spec_tokens false cur (t ++ rest) = spec_tokens false (cur ++ t) rest := by
  induction t generalizing cur with
  | nil => simp
  | cons c t ih =>
    have hc1 : c ≠ ' ' := fun e => ht.1 (by simp [e])
    have hc2 : c ≠ '"' := fun e => ht.2 (by simp [e])
    have ht2 : unquoted t := ⟨fun e => ht.1 (by simp [e]), fun e => ht.2 (by simp [e])⟩
    rw [List.cons_append, spec_tokens, if_neg hc2, if_neg (fun h => hc1 h.1), ih _ ht2]
    simp

theorem spec_tokens_join_spaces (cur t : List Char) (ts : List (List Char))
    (ht : unquoted t) (hts : ∀ u ∈ ts, unquoted u) :
    spec_tokens false cur (join_spaces (t :: ts)) = (cur ++ t) :: ts := by
  induction ts generalizing cur t with
  | nil =>
    have := spec_tokens_append_unquoted cur t [] ht
    simpa [join_spaces, spec_tokens] using this
  | cons u ts ih =>
    rw [join_spaces, spec_tokens_append_unquoted cur t _ ht, spec_tokens,
      if_neg (by decide), if_pos ⟨rfl, rfl⟩,
      ih [] u (hts u (by simp)) (fun x hx => hts x (List.mem_cons_of_mem _ hx))]
    simp

theorem not_mem_join_spaces (ts : List (List Char)) (hts : ∀ u ∈ ts, unquoted u) :
    '"' ∉ join_spaces ts := by
  induction ts with
  | nil => simp [join_spaces]
  | cons t ts ih =>
    cases ts with
    | nil => simpa [join_spaces] using (hts t (by simp)).2
    | cons u ts =>
      intro h
      rw [join_spaces] at h
      rcases List.mem_append.1 h with h | h
      · exact (hts t (by simp)).2 h
      · rcases List.mem_cons.1 h with h | h
        · exact absurd h (by decide)
        · exact ih (fun x hx => hts x (List.mem_cons_of_mem _ hx)) h

theorem quoted_after_of_not_mem (q : Bool) (s : List Char) (h : '"' ∉ s) :
    quoted_after q s = q := by
  induction s generalizing q with
  | nil => rfl
  | cons c s ih =>
    have hc : c ≠ '"' := fun e => h (by simp [e])
    have hs : '"' ∉ s := fun e => h (by simp [e])
    simp only [quoted_after, List.foldl_cons, if_neg hc]
    exact ih q hs

/-- The values handed to parse_ifcfg_arg for a line of unquoted tokens are the
values of its tokens, in order. -/
theorem main_values_join_spaces (ts : List (List Char)) (hts : ∀ u ∈ ts, unquoted u) :
    main_values [] false (join_spaces ts) = ts.filterMap spec_value := by
  rw [main_values_eq_spec_values]
  · cases ts with
    | nil => rfl
    | cons t ts =>
      unfold spec_values
      rw [spec_tokens_join_spaces [] t ts (hts t (by simp))
        (fun x hx => hts x (List.mem_cons_of_mem _ hx))]
      by_cases he : join_spaces (t :: ts) = []
      · rw [if_pos he]
        cases ts with
        | nil =>
          have : t = [] := by simpa [join_spaces] using he
          subst this
          rfl
        | cons u us => simp [join_spaces] at he
      · rw [if_neg he]
        rfl
  · intro h
    rw [quoted_after_of_not_mem false _ (not_mem_join_spaces ts hts)] at h
    exact absurd h.2 (by decide)

theorem spec_value_ifcfg (v : List Char) (hv : '"' ∉ v) :
    spec_value ("ifcfg=".toList ++ v) = some v := by
  have hp : "ifcfg=".toList <+: "ifcfg=".toList ++ v := ⟨v, rfl⟩
  have hd : ("ifcfg=".toList ++ v).drop 6 = v := rfl
  rw [spec_value, if_pos hp, hd]
  cases v with
  | nil => rfl
  | cons c r =>
    have hc : c ≠ '"' := fun e => hv (by simp [e])
    simp [spec_unquote, hc]

/-- C12: on a line of unquoted tokens separated by single spaces, a token
`ifcfg=v` whose value v has no '=' makes parse_ifcfg_arg return -EINVAL without
a change to any file, and the run goes on: the program ends as it does on the
line without that token, having run parse_ifcfg_arg on the values of the other
`ifcfg=` tokens from left to right. -/
theorem malformed_token_skipped (w : World) (tokens_before tokens_after : List (List Char))
    (v : List Char)
    (hb : ∀ t ∈ tokens_before, unquoted t) (ha : ∀ t ∈ tokens_after, unquoted t)
    (hv : unquoted v) (hmal : '=' ∉ v) :
    parse_ifcfg_arg w v = (-EINVAL, w) ∧
    main w (some (join_spaces (tokens_before ++ ("ifcfg=".toList ++ v) :: tokens_after))) =
      main w (some (join_spaces (tokens_before ++ tokens_after))) ∧
    main_loop w [] false
        (join_spaces (tokens_before ++ ("ifcfg=".toList ++ v) :: tokens_after)) =
      ((tokens_before ++ tokens_after).filterMap spec_value).foldl
        (fun w x => (parse_ifcfg_arg w x).2) w := by
  have hm : unquoted ("ifcfg=".toList ++ v) := by
    constructor
    · intro h
      rcases List.mem_append.1 h with h | h
      · exact absurd h (by decide)
      · exact hv.1 h
    · intro h
      rcases List.mem_append.1 h with h | h
      · exact absurd h (by decide)
      · exact hv.2 h
  have h1 : ∀ t ∈ tokens_before ++ ("ifcfg=".toList ++ v) :: tokens_after, unquoted t := by
    intro t ht
    rcases List.mem_append.1 ht with ht | ht
    · exact hb t ht
    · rcases List.mem_cons.1 ht with ht | ht
      · exact ht ▸ hm
      · exact ha t ht
  have h2 : ∀ t ∈ tokens_before ++ tokens_after, unquoted t := by
    intro t ht
    rcases List.mem_append.1 ht with ht | ht
    · exact hb t ht
    · exact ha t ht
  have hinv := parse_ifcfg_arg_of_no_eq w v hmal
  have hloop : ∀ w2 : World, main_loop w2 [] false
      (join_spaces (tokens_before ++ ("ifcfg=".toList ++ v) :: tokens_after)) =
      main_loop w2 [] false (join_spaces (tokens_before ++ tokens_after)) := by
    intro w2
    rw [main_loop_eq_foldl, main_loop_eq_foldl, main_values_join_spaces _ h1,
      main_values_join_spaces _ h2, List.filterMap_append, List.filterMap_append,
      List.filterMap_cons, spec_value_ifcfg v hv.2, List.foldl_append, List.foldl_append,
      List.foldl_cons, parse_ifcfg_arg_of_no_eq _ v hmal]
  refine ⟨hinv, ?_, ?_⟩
  · simp only [main, hloop]
  · rw [hloop w, main_loop_eq_foldl, main_values_join_spaces _ h2]

theorem malformed_token_skipped_witness :
    parse_ifcfg_arg empty_world "noequalshere".toList = (-EINVAL, empty_world) ∧
    main empty_world (some "ifcfg=noequalshere ifcfg=eth0=dhcp".toList) =
      main empty_world (some "ifcfg=eth0=dhcp".toList) ∧
    main_loop empty_world [] false "ifcfg=noequalshere ifcfg=eth0=dhcp".toList =
      (parse_ifcfg_arg empty_world "eth0=dhcp".toList).2 :=
  malformed_token_skipped empty_world [] ["ifcfg=eth0=dhcp".toList] "noequalshere".toList
    (by simp) (by simp [unquoted]) (by simp [unquoted]) (by decide)

/-! ## The lines of split_and_print and their order in the file -/

theorem strtok_run_eq_filter (cur s : List Char) :
    ∃ hd tl, cut ' ' s = hd :: tl ∧
      strtok_run cur s = ((cur ++ hd) :: tl).filter (fun t => !t.isEmpty) := by
  induction s generalizing cur with
  | nil =>
    refine ⟨[], [], rfl, ?_⟩
    cases cur <;> simp [strtok_run]
  | cons c s ih =>
    by_cases hc : c = ' '
    · subst hc
      obtain ⟨hd, tl, h1, h2⟩ := ih []
      refine ⟨[], hd :: tl, by simp [cut, h1], ?_⟩
      cases cur with
      | nil => simp [strtok_run, h2]
      | cons x xs => simp [strtok_run, h2]
    · obtain ⟨hd, tl, h1, h2⟩ := ih (cur ++ [c])
      refine ⟨c :: hd, tl, by simp [cut, hc, h1], ?_⟩
      have hb : (c == ' ') = false := by simpa using hc
      rw [strtok_run, hb]
      simp only [Bool.false_eq_true, if_false]
      rw [h2]
      simp

/-- The tokens of strtok_r are the maximal runs of non-space characters. -/
theorem strtok_tokens_eq_space_runs (l : List Char) : strtok_tokens l = space_runs l := by
  obtain ⟨hd, tl, h1, h2⟩ := strtok_run_eq_filter [] l
  rw [strtok_tokens, h2, space_runs, h1]
  rfl

theorem file_lines_terminated_append {a : List Char} (ha : terminated a) (b : List Char) :
    file_lines (a ++ b) = (file_lines a).dropLast ++ file_lines b := by
  rcases ha with rfl | ⟨a2, rfl⟩
  · rfl
  · have e1 : a2 ++ ['\n'] ++ b = a2 ++ '\n' :: b := by simp
    have e2 : a2 ++ ['\n'] = a2 ++ '\n' :: [] := rfl
    rw [file_lines, file_lines, file_lines, e1, cut_append_sep, e2, cut_append_sep]
    have : cut '\n' [] = [[]] := rfl
    rw [this, List.dropLast_concat]

theorem file_lines_of_lines (ls : List (List Char)) (h : ∀ t ∈ ls, '\n' ∉ t) :
    file_lines ((ls.map (fun t => t ++ "\n".toList)).flatten) = ls ++ [[]] := by
  induction ls with
  | nil => rfl
  | cons t ls ih =>
    have e : ((t :: ls).map (fun t => t ++ "\n".toList)).flatten =
        t ++ '\n' :: (ls.map (fun t => t ++ "\n".toList)).flatten := by
      simp
    rw [e, file_lines, cut_append_cons (h t (by simp))]
    have := ih (fun x hx => h x (List.mem_cons_of_mem _ hx))
    rw [file_lines] at this
    rw [this]
    rfl

theorem line_rank_static {l : List Char} {x : Nat} (h : line_rank l = some x) :
    static_line l := by
  unfold line_rank at h
  split at h
  · exact Or.inl (by assumption)
  · split at h
    · exact Or.inr (Or.inl (by assumption))
    · split at h
      · exact Or.inr (Or.inr (Or.inl (by assumption)))
      · exact absurd h (by simp)

theorem line_rank_none {l : List Char} (h : ¬ static_line l) : line_rank l = none := by
  cases hx : line_rank l with
  | none => rfl
  | some x => exact absurd (line_rank_static hx) h

theorem line_rank_address {l : List Char} (h : "Address=".toList <+: l) :
    line_rank l = some 0 := by
  simp only [line_rank, if_pos h]

theorem line_rank_gateway {l : List Char} (h : "Gateway=".toList <+: l) :
    line_rank l = some 1 := by
  obtain ⟨t, rfl⟩ := h
  have h1 : ¬ "Address=".toList <+: "Gateway=".toList ++ t := by
    intro h2
    have := head_of_isPrefix h2
    simp at this
  simp only [line_rank, if_neg h1, if_pos (List.prefix_append _ _)]

theorem line_rank_dns {l : List Char} (h : "DNS=".toList <+: l) : line_rank l = some 2 := by
  obtain ⟨t, rfl⟩ := h
  have h1 : ¬ "Address=".toList <+: "DNS=".toList ++ t := by
    intro h2
    have := head_of_isPrefix h2
    simp at this
  have h2 : ¬ "Gateway=".toList <+: "DNS=".toList ++ t := by
    intro h2
    have := head_of_isPrefix h2
    simp at this
  simp only [line_rank, if_neg h1, if_neg h2, if_pos (List.prefix_append _ _)]

theorem line_rank_domains (d : List Char) : line_rank ("Domains=".toList ++ d) = none := by
  have h1 : ¬ "Address=".toList <+: "Domains=".toList ++ d := by
    intro h2
    have := head_of_isPrefix h2
    simp at this
  have h2 : ¬ "Gateway=".toList <+: "Domains=".toList ++ d := by
    intro h2
    have := head_of_isPrefix h2
    simp at this
  have h3 : ¬ "DNS=".toList <+: "Domains=".toList ++ d := by
    intro h2
    have e : "DNS=".toList = ['D', 'N', 'S', '='] := rfl
    have e2 : "Domains=".toList ++ d = 'D' :: 'o' :: ("mains=".toList ++ d) := rfl
    rw [e, e2, List.cons_prefix_cons, List.cons_prefix_cons] at h2
    exact absurd h2.2.1 (by decide)
  simp only [line_rank, if_neg h1, if_neg h2, if_neg h3]

theorem key_lines_eq_lines (key l : List Char) :
    key_lines key (some l) =
      (((strtok_tokens l).map (fun t => key ++ "=".toList ++ t)).map
        (fun t => t ++ "\n".toList)).flatten := by
  unfold key_lines
  simp only [List.map_map]
  congr 1

theorem file_lines_key_lines_eq (key l : List Char) (hk : '\n' ∉ key) (hl : '\n' ∉ l) :
    file_lines (key_lines key (some l)) =
      (strtok_tokens l).map (fun t => key ++ "=".toList ++ t) ++ [[]] := by
  rw [key_lines_eq_lines, file_lines_of_lines]
  intro x hx
  obtain ⟨t, ht, rfl⟩ := List.mem_map.1 hx
  intro hm
  rcases List.mem_append.1 hm with hm | hm
  · rcases List.mem_append.1 hm with hm | hm
    · exact hk hm
    · exact absurd hm (by decide)
  · exact hl (strtok_tokens_mem ht _ hm)

/-- The ranks of the lines of one list of a static spec are all the rank of its key. -/
theorem line_rank_key_lines (key : List Char) (k : Nat) (list : Option (List Char))
    (hk : '\n' ∉ key) (hl : ∀ f, list = some f → '\n' ∉ f)
    (hrank : ∀ l, key ++ "=".toList <+: l → line_rank l = some k) :
    ∀ x ∈ (file_lines (key_lines key list)).dropLast.filterMap line_rank, x = k := by
  intro x hx
  obtain ⟨l, hl1, hl2⟩ := List.mem_filterMap.1 hx
  cases list with
  | none => simp [key_lines, file_lines, cut] at hl1
  | some f =>
    rw [file_lines_key_lines_eq key f hk (hl f rfl), List.dropLast_concat] at hl1
    obtain ⟨t, _, rfl⟩ := List.mem_map.1 hl1
    have := hrank _ (List.prefix_append (key ++ "=".toList) t)
    rw [this] at hl2
    exact (Option.some.inj hl2).symm

theorem pairwise_three_blocks (A G D : List Nat) (hA : ∀ x ∈ A, x = 0) (hG : ∀ x ∈ G, x = 1)
    (hD : ∀ x ∈ D, x = 2) : (A ++ (G ++ D)).Pairwise (fun a b => a ≤ b) := by
  rw [List.pairwise_append, List.pairwise_append]
  refine ⟨List.pairwise_of_forall_mem_list (fun a ha b hb => by rw [hA a ha, hA b hb]),
    ⟨List.pairwise_of_forall_mem_list (fun a ha b hb => by rw [hG a ha, hG b hb]),
     List.pairwise_of_forall_mem_list (fun a ha b hb => by rw [hD a ha, hD b hb]),
     fun a ha b hb => by rw [hG a ha, hD b hb]; decide⟩, ?_⟩
  intro a ha b hb
  rw [hA a ha]
  exact Nat.zero_le b

theorem directive_content_static (I config : List Char)
    (hmode : ¬ "dhcp".toList <+: trim_whitespace (before config ',')) :
    directive_content I config =
      match_section I ++ ("\n[Network]\n".toList ++
        (key_lines "Address".toList (fields config)[0]? ++
          (key_lines "Gateway".toList (fields config)[1]? ++
            (key_lines "DNS".toList (fields config)[2]? ++
              domains_line (fields config)[3]?)))) := by
  simp only [directive_content, parse_config_static I config hmode]
  rw [write_sections_static]
  rfl

/-- In the file of a directive that is a DHCP directive or whose trimmed fields
0 to 3 hold no newline, the Address=, Gateway= and DNS= lines stand in this
order. -/
theorem line_rank_directive_content (I config : List Char) (hI : '=' ∉ I)
    (hcond : "dhcp".toList <+: trim_whitespace (before config ',') ∨
      ∀ f ∈ (fields config).take 4, '\n' ∉ f) :
    ((file_lines (directive_content I config)).filterMap line_rank).Pairwise
      (fun a b => a ≤ b) := by
  by_cases hd : "dhcp".toList <+: trim_whitespace (before config ',')
  · have : (file_lines (directive_content I config)).filterMap line_rank = [] := by
      rw [List.filterMap_eq_nil_iff]
      intro l hl
      exact line_rank_none (dhcp_content_no_static_line I config hI hd l hl)
    rw [this]
    exact List.Pairwise.nil
  · have hn : ∀ f ∈ (fields config).take 4, '\n' ∉ f := by
      rcases hcond with h | h
      · exact absurd h hd
      · exact h
    have hf : ∀ i, i < 4 → ∀ f, (fields config)[i]? = some f → '\n' ∉ f :=
      fun i hi f hf => hn f (fields_take_mem hi hf)
    have tn : terminated "\n[Network]\n".toList := Or.inr ⟨"\n[Network]".toList, rfl⟩
    rw [directive_content_static I config hd,
      file_lines_terminated_append (terminated_match_section I),
      file_lines_terminated_append tn,
      file_lines_terminated_append (terminated_key_lines _ _),
      file_lines_terminated_append (terminated_key_lines _ _),
      file_lines_terminated_append (terminated_key_lines _ _)]
    simp only [List.filterMap_append]
    have hM : (file_lines (match_section I)).dropLast.filterMap line_rank = [] := by
      rw [List.filterMap_eq_nil_iff]
      intro l hl
      apply line_rank_none
      intro hs
      have h1 : l ∈ file_lines (match_section I ++ []) := by
        rw [List.append_nil]
        exact List.mem_of_mem_dropLast hl
      have h2 := match_section_static_line hI h1 hs
      have h3 : l = [] := by simpa [file_lines, cut] using h2
      subst h3
      rcases static_line_head hs with e | e | e <;> simp at e
    have hN : (file_lines "\n[Network]\n".toList).dropLast.filterMap line_rank = [] := by
      decide
    have hDL : (file_lines (domains_line (fields config)[3]?)).filterMap line_rank = [] := by
      rw [List.filterMap_eq_nil_iff]
      intro l hl
      cases hdm : (fields config)[3]? with
      | none =>
        rw [hdm] at hl
        have : l = [] := by simpa [domains_line, file_lines, cut] using hl
        subst this
        rfl
      | some d =>
        rw [hdm] at hl
        by_cases he : d = []
        · have : l = [] := by simpa [domains_line, he, file_lines, cut] using hl
          subst this
          rfl
        · have e : domains_line (some d) = ("Domains=".toList ++ d) ++ '\n' :: [] := by
            simp [domains_line, he]
          rw [e] at hl
          have hnl : '\n' ∉ "Domains=".toList ++ d := by
            intro hm
            rcases List.mem_append.1 hm with hm | hm
            · exact absurd hm (by decide)
            · exact hf 3 (by decide) d hdm hm
          rcases file_lines_line_append hnl hl with h | h
          · rw [h]
            exact line_rank_domains d
          · have : l = [] := by simpa [file_lines, cut] using h
            subst this
            rfl
    rw [hM, hN, hDL, List.nil_append, List.nil_append, List.append_nil]
    exact pairwise_three_blocks _ _ _
      (line_rank_key_lines "Address".toList 0 _ (by decide) (hf 0 (by decide))
        (fun l h => line_rank_address h))
      (line_rank_key_lines "Gateway".toList 1 _ (by decide) (hf 1 (by decide))
        (fun l h => line_rank_gateway h))
      (line_rank_key_lines "DNS".toList 2 _ (by decide) (hf 2 (by decide))
        (fun l h => line_rank_dns h))

/-- C15, as amended: for every key and list string split_and_print appends the
text `key=t` and a newline for each space-separated token t of the list (each
maximal run of non-space characters), in order and with duplicates kept, and
nothing for an absent or empty list; when the key and the list hold no
newline these are exactly the lines it prints, one for each token; and in the
file of a directive that is a DHCP directive or whose trimmed fields 0 to 3
hold no newline character, all Address= lines come before all Gateway= lines,
which come before all DNS= lines. -/
theorem split_and_print_lines (w : World) (I config : List Char) (hI : '=' ∉ I)
    (hcond : "dhcp".toList <+: trim_whitespace (before config ',') ∨
      ∀ f ∈ (fields config).take 4, '\n' ∉ f) :
    (∀ fp key l : List Char, split_and_print fp key (some l) =
      (0, fp ++
        ((space_runs l).map (fun t => key ++ "=".toList ++ t ++ "\n".toList)).flatten)) ∧
    (∀ fp key : List Char,
      split_and_print fp key none = (0, fp) ∧ split_and_print fp key (some []) = (0, fp)) ∧
    (∀ key l : List Char, '\n' ∉ key → '\n' ∉ l →
      file_lines
          ((space_runs l).map (fun t => key ++ "=".toList ++ t ++ "\n".toList)).flatten =
        (space_runs l).map (fun t => key ++ "=".toList ++ t) ++ [[]]) ∧
    (w.fopen_errno (filepath I) = none →
      (parse_ifcfg_arg w (I ++ '=' :: config)).2.files (filepath I) =
        some (directive_content I config)) ∧
    ((file_lines (directive_content I config)).filterMap line_rank).Pairwise
      (fun a b => a ≤ b) := by
  refine ⟨?_, ?_, ?_, parse_ifcfg_arg_file w I config hI,
    line_rank_directive_content I config hI hcond⟩
  · intro fp key l
    rw [split_and_print_eq, key_lines, strtok_tokens_eq_space_runs]
  · intro fp key
    constructor
    · rw [split_and_print_eq]
      simp [key_lines]
    · rw [split_and_print_eq]
      simp [key_lines, strtok_tokens_nil]
  · intro key l hk hl
    have := file_lines_key_lines_eq key l hk hl
    rw [key_lines, strtok_tokens_eq_space_runs] at this
    exact this

theorem split_and_print_lines_witness :
    split_and_print [] "Address".toList (some " 10.0.0.2/24  10.0.0.3 10.0.0.2/24".toList) =
      (0, "Address=10.0.0.2/24\nAddress=10.0.0.3\nAddress=10.0.0.2/24\n".toList) ∧
    (parse_ifcfg_arg empty_world "eth1=10.0.0.2 10.0.0.3,10.0.0.1,8.8.8.8 9.9.9.9\n".toList).2.files
        "/run/systemd/network/60-ifcfg-eth1.network".toList =
      some (directive_content "eth1".toList "10.0.0.2 10.0.0.3,10.0.0.1,8.8.8.8 9.9.9.9\n".toList) ∧
    ((file_lines (directive_content "eth1".toList
      "10.0.0.2 10.0.0.3,10.0.0.1,8.8.8.8 9.9.9.9\n".toList)).filterMap line_rank).Pairwise
      (fun a b => a ≤ b) :=
  have h := split_and_print_lines empty_world "eth1".toList
    "10.0.0.2 10.0.0.3,10.0.0.1,8.8.8.8 9.9.9.9\n".toList (by decide) (Or.inr (by decide))
  ⟨h.1 [] "Address".toList " 10.0.0.2/24  10.0.0.3 10.0.0.2/24".toList, h.2.2.2.1 rfl,
    h.2.2.2.2⟩

/-- C15, as stated, fails: the directive `eth0=1.1.1.1,2.2.2.2\nAddress=3.3.3.3`,
whose gateway list holds a newline, writes a file in which the line
`Address=3.3.3.3` comes after the line `Gateway=2.2.2.2`. -/
theorem address_line_after_gateway :
    (parse_ifcfg_arg empty_world "eth0=1.1.1.1,2.2.2.2\nAddress=3.3.3.3".toList).2.files
        "/run/systemd/network/60-ifcfg-eth0.network".toList =
      some ("[Match]\nName=eth0\n\n[Network]\nAddress=1.1.1.1\nGateway=2.2.2.2\n" ++
        "Address=3.3.3.3\n").toList ∧
    file_lines ("[Match]\nName=eth0\n\n[Network]\nAddress=1.1.1.1\nGateway=2.2.2.2\n" ++
        "Address=3.3.3.3\n").toList =
      ["[Match]", "Name=eth0", "", "[Network]", "Address=1.1.1.1", "Gateway=2.2.2.2",
        "Address=3.3.3.3", ""].map String.toList ∧
    (file_lines ("[Match]\nName=eth0\n\n[Network]\nAddress=1.1.1.1\nGateway=2.2.2.2\n" ++
        "Address=3.3.3.3\n").toList).filterMap line_rank = [0, 1, 0] ∧
    ¬ ([0, 1, 0] : List Nat).Pairwise (fun a b => a ≤ b) := by
  decide

/-! ## The lines of a static file, kind by kind -/

theorem key_lines_line_kind (key : List Char) (list : Option (List Char))
    (hk : '\n' ∉ key) (hl : ∀ f, list = some f → '\n' ∉ f) :
    ∀ l ∈ file_lines (key_lines key list),
      l = [] ∨ (key ++ "=".toList <+: l ∧ ∃ f, list = some f ∧ f ≠ []) := by
  intro l h
  cases list with
  | none =>
    simp [key_lines, file_lines, cut] at h
    exact Or.inl h
  | some f =>
    rw [file_lines_key_lines_eq key f hk (hl f rfl), List.mem_append] at h
    rcases h with h | h
    · obtain ⟨t, ht, rfl⟩ := List.mem_map.1 h
      refine Or.inr ⟨List.prefix_append _ _, f, rfl, ?_⟩
      intro e
      rw [e, strtok_tokens_nil] at ht
      simp at ht
    · exact Or.inl (by simpa using h)

theorem domains_line_line_kind (domains : Option (List Char))
    (hl : ∀ f, domains = some f → '\n' ∉ f) :
    ∀ l ∈ file_lines (domains_line domains),
      l = [] ∨ ("Domains=".toList <+: l ∧ ∃ f, domains = some f ∧ f ≠ []) := by
  cases domains with
  | none =>
    intro l h
    simp [domains_line, file_lines, cut] at h
    exact Or.inl h
  | some d =>
    intro l h
    by_cases he : d = []
    · have : l = [] := by simpa [domains_line, he, file_lines, cut] using h
      exact Or.inl this
    · have e : domains_line (some d) = ("Domains=".toList ++ d) ++ '\n' :: [] := by
        simp [domains_line, he]
      rw [e] at h
      have hnl : '\n' ∉ "Domains=".toList ++ d := by
        intro hm
        rcases List.mem_append.1 hm with hm | hm
        · exact absurd hm (by decide)
        · exact hl d rfl hm
      rcases file_lines_line_append hnl h with h | h
      · exact Or.inr ⟨⟨d, h.symm⟩, d, rfl, he⟩
      · have : l = [] := by simpa [file_lines, cut] using h
        exact Or.inl this

/-- Every line after the [Match] section of a static file whose lists hold no
newline is empty, the [Network] header, or a line of one of the four kinds
whose list is present and not empty. -/
theorem static_rest_line_kind (ip_list gw_list dns_list domains : Option (List Char))
    (h1 : ∀ f, ip_list = some f → '\n' ∉ f) (h2 : ∀ f, gw_list = some f → '\n' ∉ f)
    (h3 : ∀ f, dns_list = some f → '\n' ∉ f) (h4 : ∀ f, domains = some f → '\n' ∉ f) :
    ∀ l ∈ file_lines (static_rest ip_list gw_list dns_list domains),
      l = [] ∨ l = "[Network]".toList ∨
      ("Address=".toList <+: l ∧ ∃ f, ip_list = some f ∧ f ≠ []) ∨
      ("Gateway=".toList <+: l ∧ ∃ f, gw_list = some f ∧ f ≠ []) ∨
      ("DNS=".toList <+: l ∧ ∃ f, dns_list = some f ∧ f ≠ []) ∨
      ("Domains=".toList <+: l ∧ ∃ f, domains = some f ∧ f ≠ []) := by
  intro l hl
  unfold static_rest static_tail at hl
  rcases file_lines_append (Or.inr ⟨"\n[Network]".toList, rfl⟩) hl with h | h
  · have hd : ∀ x ∈ file_lines ("\n[Network]".toList ++ ['\n']),
        x = [] ∨ x = "[Network]".toList := by
      decide
    rcases hd l h with e | e
    · exact Or.inl e
    · exact Or.inr (Or.inl e)
  rcases file_lines_append (terminated_key_lines _ _) h with h | h
  · rcases key_lines_line_kind "Address".toList ip_list (by decide) h1 l h with e | e
    · exact Or.inl e
    · exact Or.inr (Or.inr (Or.inl e))
  rcases file_lines_append (terminated_key_lines _ _) h with h | h
  · rcases key_lines_line_kind "Gateway".toList gw_list (by decide) h2 l h with e | e
    · exact Or.inl e
    · exact Or.inr (Or.inr (Or.inr (Or.inl e)))
  rcases file_lines_append (terminated_key_lines _ _) h with h | h
  · rcases key_lines_line_kind "DNS".toList dns_list (by decide) h3 l h with e | e
    · exact Or.inl e
    · exact Or.inr (Or.inr (Or.inr (Or.inr (Or.inl e))))
  · rcases domains_line_line_kind domains h4 l h with e | e
    · exact Or.inl e
    · exact Or.inr (Or.inr (Or.inr (Or.inr (Or.inr e))))

theorem not_present {list : Option (List Char)} (h : list = none ∨ list = some [])
    (hp : ∃ f, list = some f ∧ f ≠ []) : False := by
  obtain ⟨f, hf, hne⟩ := hp
  rcases h with h | h
  · rw [h] at hf
    exact absurd hf (by simp)
  · rw [h] at hf
    exact hne (Option.some.inj hf).symm

theorem directive_content_static_rest (I config : List Char)
    (hmode : ¬ "dhcp".toList <+: trim_whitespace (before config ',')) :
    directive_content I config =
      match_section I ++ static_rest (fields config)[0]? (fields config)[1]?
        (fields config)[2]? (fields config)[3]? := by
  simp only [directive_content, parse_config_static I config hmode]
  rw [write_sections_static]

/-- In a static file whose trimmed fields 0 to 3 hold no newline, a field that
is absent or empty has no line of its kind. -/
theorem absent_field_no_line (I config : List Char) (hI : '=' ∉ I)
    (hmode : ¬ "dhcp".toList <+: trim_whitespace (before config ','))
    (hn : ∀ f ∈ (fields config).take 4, '\n' ∉ f) :
    (((fields config)[0]? = none ∨ (fields config)[0]? = some []) →
      ∀ l ∈ file_lines (directive_content I config), ¬ "Address=".toList <+: l) ∧
    (((fields config)[1]? = none ∨ (fields config)[1]? = some []) →
      ∀ l ∈ file_lines (directive_content I config), ¬ "Gateway=".toList <+: l) ∧
    (((fields config)[2]? = none ∨ (fields config)[2]? = some []) →
      ∀ l ∈ file_lines (directive_content I config), ¬ "DNS=".toList <+: l) ∧
    (((fields config)[3]? = none ∨ (fields config)[3]? = some []) →
      ∀ l ∈ file_lines (directive_content I config), ¬ "Domains=".toList <+: l) := by
  have hk : ∀ l ∈ file_lines (directive_content I config), static_line l →
      l = [] ∨ l = "[Network]".toList ∨
      ("Address=".toList <+: l ∧ ∃ f, (fields config)[0]? = some f ∧ f ≠ []) ∨
      ("Gateway=".toList <+: l ∧ ∃ f, (fields config)[1]? = some f ∧ f ≠ []) ∨
      ("DNS=".toList <+: l ∧ ∃ f, (fields config)[2]? = some f ∧ f ≠ []) ∨
      ("Domains=".toList <+: l ∧ ∃ f, (fields config)[3]? = some f ∧ f ≠ []) := by
    intro l hl hs
    rw [directive_content_static_rest I config hmode] at hl
    exact static_rest_line_kind _ _ _ _
      (fun f hf => hn f (fields_take_mem (by decide) hf))
      (fun f hf => hn f (fields_take_mem (by decide) hf))
      (fun f hf => hn f (fields_take_mem (by decide) hf))
      (fun f hf => hn f (fields_take_mem (by decide) hf)) l
      (match_section_static_line hI hl hs)
  have hx : ∀ {k1 k2 l : List Char}, k1 <+: l → k2 <+: l → ¬ (k1 <+: k2 ∨ k2 <+: k1) → False :=
    fun h1 h2 hne => hne (List.prefix_or_prefix_of_prefix h1 h2)
  refine ⟨fun habs l hl hp => ?_, fun habs l hl hp => ?_, fun habs l hl hp => ?_,
    fun habs l hl hp => ?_⟩
  · rcases hk l hl (Or.inl hp) with e | e | e | e | e | e
    · subst e; exact absurd hp (by decide)
    · subst e; exact absurd hp (by decide)
    · exact not_present habs e.2
    · exact hx hp e.1 (by decide)
    · exact hx hp e.1 (by decide)
    · exact hx hp e.1 (by decide)
  · rcases hk l hl (Or.inr (Or.inl hp)) with e | e | e | e | e | e
    · subst e; exact absurd hp (by decide)
    · subst e; exact absurd hp (by decide)
    · exact hx hp e.1 (by decide)
    · exact not_present habs e.2
    · exact hx hp e.1 (by decide)
    · exact hx hp e.1 (by decide)
  · rcases hk l hl (Or.inr (Or.inr (Or.inl hp))) with e | e | e | e | e | e
    · subst e; exact absurd hp (by decide)
    · subst e; exact absurd hp (by decide)
    · exact hx hp e.1 (by decide)
    · exact hx hp e.1 (by decide)
    · exact not_present habs e.2
    · exact hx hp e.1 (by decide)
  · rcases hk l hl (Or.inr (Or.inr (Or.inr hp))) with e | e | e | e | e | e
    · subst e; exact absurd hp (by decide)
    · subst e; exact absurd hp (by decide)
    · exact hx hp e.1 (by decide)
    · exact hx hp e.1 (by decide)
    · exact hx hp e.1 (by decide)
    · exact not_present habs e.2

/-- C3, as amended: for every static config body (field 0 does not start with
`dhcp`) the trimmed fields 0, 1, 2, 3 are the addresses, gateways, nameservers
and search domains with which the renderer is called; the file holds, after
[Match] and the [Network] header, what is printed for these four and nothing
else; when none of the trimmed fields 0 to 3 holds a newline character, a field
that is absent or empty has no Address=, Gateway=, DNS= or Domains= line of
its kind in the file; and a config body with the same fields 0 to 3 gives the
same result, whatever its fields from index 4 on. -/
theorem static_fields_mapping (w : World) (I config : List Char) (hI : '=' ∉ I)
    (hmode : ¬ "dhcp".toList <+: trim_whitespace (before config ','))
    (hopen : w.fopen_errno (filepath I) = none) :
    parse_config I config =
      some { interface := I, is_dhcp := false, dhcp_v4 := true, dhcp_v6 := true,
             rfc2132 := false, ip_list := (fields config)[0]?, gw_list := (fields config)[1]?,
             dns_list := (fields config)[2]?, domains := (fields config)[3]? } ∧
    parse_ifcfg_arg w (I ++ '=' :: config) =
      (0, w.store
        ("/run/systemd/network/60-ifcfg-".toList ++ sanitize_filename I ++ ".network".toList)
        (directive_content I config)) ∧
    directive_content I config =
      match_section I ++ "\n[Network]\n".toList ++
        key_lines "Address".toList (fields config)[0]? ++
        key_lines "Gateway".toList (fields config)[1]? ++
        key_lines "DNS".toList (fields config)[2]? ++
        domains_line (fields config)[3]? ∧
    ((∀ f ∈ (fields config).take 4, '\n' ∉ f) →
      (((fields config)[0]? = none ∨ (fields config)[0]? = some []) →
        ∀ l ∈ file_lines (directive_content I config), ¬ "Address=".toList <+: l) ∧
      (((fields config)[1]? = none ∨ (fields config)[1]? = some []) →
        ∀ l ∈ file_lines (directive_content I config), ¬ "Gateway=".toList <+: l) ∧
      (((fields config)[2]? = none ∨ (fields config)[2]? = some []) →
        ∀ l ∈ file_lines (directive_content I config), ¬ "DNS=".toList <+: l) ∧
      (((fields config)[3]? = none ∨ (fields config)[3]? = some []) →
        ∀ l ∈ file_lines (directive_content I config), ¬ "Domains=".toList <+: l)) ∧
    (∀ config2, (fields config2).take 4 = (fields config).take 4 →
      parse_ifcfg_arg w (I ++ '=' :: config2) = parse_ifcfg_arg w (I ++ '=' :: config)) := by
  have hp := parse_config_static I config hmode
  refine ⟨hp, ?_, ?_, absent_field_no_line I config hI hmode, ?_⟩
  · rw [parse_ifcfg_arg_store w I config hI, hopen, filepath_eq]
  · rw [directive_content_static I config hmode]
    simp
  · intro config2 h
    have hget : ∀ i, i < 4 → (fields config2)[i]? = (fields config)[i]? := by
      intro i hi
      rw [← List.getElem?_take_of_lt hi, h, List.getElem?_take_of_lt hi]
    have hmode2 : ¬ "dhcp".toList <+: trim_whitespace (before config2 ',') := by
      have e1 := fields_head config2
      have e2 := fields_head config
      rw [hget 0 (by decide), e2] at e1
      have e3 : trim_whitespace (before config ',') = trim_whitespace (before config2 ',') := by
        simpa using e1
      rw [← e3]
      exact hmode
    rw [parse_ifcfg_arg_eq w I _ hI, parse_ifcfg_arg_eq w I _ hI, hp,
      parse_config_static I config2 hmode2, hget 0 (by decide), hget 1 (by decide),
      hget 2 (by decide), hget 3 (by decide)]

theorem static_fields_mapping_witness :
    parse_config "eth1".toList "10.0.0.2/24 , 10.0.0.1".toList =
      some { interface := "eth1".toList, is_dhcp := false, dhcp_v4 := true, dhcp_v6 := true,
             rfc2132 := false, ip_list := some "10.0.0.2/24".toList,
             gw_list := some "10.0.0.1".toList, dns_list := none, domains := none } ∧
    parse_ifcfg_arg empty_world "eth1=10.0.0.2/24 , 10.0.0.1".toList =
      (0, empty_world.store "/run/systemd/network/60-ifcfg-eth1.network".toList
        "[Match]\nName=eth1\n\n[Network]\nAddress=10.0.0.2/24\nGateway=10.0.0.1\n".toList) ∧
    (∀ l ∈ file_lines
        "[Match]\nName=eth1\n\n[Network]\nAddress=10.0.0.2/24\nGateway=10.0.0.1\n".toList,
      ¬ "DNS=".toList <+: l) ∧
    (∀ l ∈ file_lines
        "[Match]\nName=eth1\n\n[Network]\nAddress=10.0.0.2/24\nGateway=10.0.0.1\n".toList,
      ¬ "Domains=".toList <+: l) :=
  have h := static_fields_mapping empty_world "eth1".toList "10.0.0.2/24 , 10.0.0.1".toList
    (by decide) (by decide) rfl
  ⟨h.1, h.2.1, (h.2.2.2.1 (by decide)).2.2.1 (Or.inl rfl),
    (h.2.2.2.1 (by decide)).2.2.2 (Or.inl rfl)⟩

/-- C3, as stated, fails: the static config body `x\nGateway=g` has one field, so
that the gateway field is absent, and the file of the directive
`eth0=x\nGateway=g` has the line `Gateway=g`. -/
theorem absent_field_line_printed :
    ¬ "dhcp".toList <+: trim_whitespace (before "x\nGateway=g".toList ',') ∧
    fields "x\nGateway=g".toList = ["x\nGateway=g".toList] ∧
    (fields "x\nGateway=g".toList)[1]? = none ∧
    parse_ifcfg_arg empty_world "eth0=x\nGateway=g".toList =
      (0, empty_world.store "/run/systemd/network/60-ifcfg-eth0.network".toList
        "[Match]\nName=eth0\n\n[Network]\nAddress=x\nGateway=g\n".toList) ∧
    file_lines "[Match]\nName=eth0\n\n[Network]\nAddress=x\nGateway=g\n".toList =
      ["[Match]", "Name=eth0", "", "[Network]", "Address=x", "Gateway=g", ""].map String.toList ∧
    "Gateway=".toList <+: "Gateway=g".toList := by
  refine ⟨by decide, by decide, by decide, rfl, by decide, by decide⟩

/-! ## The lines of a static directive with four fields -/

theorem file_lines_name (I : List Char) :
    file_lines ("Name=".toList ++ I) =
      ("Name=".toList ++ (file_lines I).headD []) :: (file_lines I).tail := by
  obtain ⟨hd, tl, h1, h2⟩ := @cut_append_of_not_mem '\n' "Name=".toList (by decide) I
  rw [file_lines, file_lines, h2, h1]
  rfl

/-- The lines of the file of a static directive whose four values hold no
newline: the [Match] header, the lines of `Name=` followed by the identifier,
an empty line, the [Network] header and the four key lines. -/
theorem static_file_lines (I a g d s : List Char) (ha : '\n' ∉ a) (hg : '\n' ∉ g)
    (hd : '\n' ∉ d) (hs : '\n' ∉ s) :
    file_lines ("[Match]\nName=".toList ++ I ++ "\n\n[Network]\nAddress=".toList ++ a ++
        "\nGateway=".toList ++ g ++ "\nDNS=".toList ++ d ++ "\nDomains=".toList ++ s ++
        "\n".toList) =
      "[Match]".toList :: (file_lines ("Name=".toList ++ I) ++
        [[], "[Network]".toList, "Address=".toList ++ a, "Gateway=".toList ++ g,
          "DNS=".toList ++ d, "Domains=".toList ++ s, []]) := by
  have e : "[Match]\nName=".toList ++ I ++ "\n\n[Network]\nAddress=".toList ++ a ++
        "\nGateway=".toList ++ g ++ "\nDNS=".toList ++ d ++ "\nDomains=".toList ++ s ++
        "\n".toList =
      "[Match]".toList ++ '\n' :: (("Name=".toList ++ I) ++ '\n' :: ([] ++ '\n' ::
        ("[Network]".toList ++ '\n' :: (("Address=".toList ++ a) ++ '\n' ::
          (("Gateway=".toList ++ g) ++ '\n' :: (("DNS=".toList ++ d) ++ '\n' ::
            (("Domains=".toList ++ s) ++ '\n' :: []))))))) := by
    simp
  have hp : ∀ (p x : List Char), '\n' ∉ p → '\n' ∉ x → '\n' ∉ p ++ x := by
    intro p x h1 h2 hm
    rcases List.mem_append.1 hm with hm | hm
    · exact h1 hm
    · exact h2 hm
  rw [e, file_lines, file_lines, cut_append_cons (by decide), cut_append_sep,
    cut_append_cons (List.not_mem_nil _), cut_append_cons (by decide),
    cut_append_cons (hp _ _ (by decide) ha), cut_append_cons (hp _ _ (by decide) hg),
    cut_append_cons (hp _ _ (by decide) hd), cut_append_cons (hp _ _ (by decide) hs)]
  rfl

/-- C5, as amended: for a static directive `I=a,g,d,s` (I without '=' and ':';
a, g, d single tokens, a not starting with `dhcp`; s a trimmed string without
comma) parse_ifcfg_arg writes, at the path of I, the file whose whole content
is `[Match]\nName=I\n\n[Network]\nAddress=a\nGateway=g\nDNS=d\nDomains=s\n`;
when none of a, g, d, s holds a newline character, no line of the file starts
with `DHCP=`, the lines that start with `Domains=` are the single line
`Domains=s`, and a line that starts with `[DHCP` can only be a line of the
identifier I after its first; when I holds no newline either, the lines of the
file are exactly [Match], Name=I, an empty line, [Network], Address=a,
Gateway=g, DNS=d and Domains=s. -/
theorem static_directive_file (w : World) (I a g d s : List Char)
    (hI1 : '=' ∉ I) (hI2 : ':' ∉ I)
    (ha : single_token a) (hg : single_token g) (hd : single_token d)
    (hmode : ¬ "dhcp".toList <+: a) (hs : trimmed s) (hsc : ',' ∉ s)
    (hopen : w.fopen_errno (filepath I) = none) :
    parse_config I (a ++ ",".toList ++ g ++ ",".toList ++ d ++ ",".toList ++ s) =
      some { interface := I, is_dhcp := false, dhcp_v4 := true, dhcp_v6 := true,
             rfc2132 := false, ip_list := some a, gw_list := some g, dns_list := some d,
             domains := some s } ∧
    ∃ content,
      content = "[Match]\nName=".toList ++ I ++ "\n\n[Network]\nAddress=".toList ++ a ++
        "\nGateway=".toList ++ g ++ "\nDNS=".toList ++ d ++ "\nDomains=".toList ++ s ++
        "\n".toList ∧
      parse_ifcfg_arg w
          (I ++ "=".toList ++ a ++ ",".toList ++ g ++ ",".toList ++ d ++ ",".toList ++ s) =
        (0, w.store
          ("/run/systemd/network/60-ifcfg-".toList ++ sanitize_filename I ++ ".network".toList)
          content) ∧
      ('\n' ∉ a → '\n' ∉ g → '\n' ∉ d → '\n' ∉ s →
        (∀ l ∈ file_lines content, ¬ "DHCP=".toList <+: l) ∧
        (file_lines content).filter (fun l => decide ("Domains=".toList <+: l)) =
          ["Domains=".toList ++ s] ∧
        (∀ l ∈ file_lines content, "[DHCP".toList <+: l → l ∈ (file_lines I).tail) ∧
        ('\n' ∉ I →
          file_lines content =
            ["[Match]".toList, "Name=".toList ++ I, [], "[Network]".toList,
              "Address=".toList ++ a, "Gateway=".toList ++ g, "DNS=".toList ++ d,
              "Domains=".toList ++ s, []])) := by
  have hcfg : a ++ ",".toList ++ g ++ ",".toList ++ d ++ ",".toList ++ s =
      a ++ ',' :: (g ++ ',' :: (d ++ ',' :: s)) := by simp
  have htok : split_tokens MAX_TOKENS (a ++ ',' :: (g ++ ',' :: (d ++ ',' :: s))) =
      [a, g, d, s] := by
    rw [split_tokens_eq_take, fields, cut_append_cons ha.2.2, cut_append_cons hg.2.2,
      cut_append_cons hd.2.2, cut_of_not_mem hsc]
    simp [MAX_TOKENS, trim_whitespace_of_trimmed ha.1, trim_whitespace_of_trimmed hg.1,
      trim_whitespace_of_trimmed hd.1, trim_whitespace_of_trimmed hs]
  have hmode2 : strneq a "dhcp".toList 4 = false := by
    have := strneq_iff_isPrefix a "dhcp".toList
    cases hx : strneq a "dhcp".toList 4 with
    | false => rfl
    | true => exact absurd (this.1 hx) hmode
  have hp : parse_config I (a ++ ',' :: (g ++ ',' :: (d ++ ',' :: s))) =
      some { interface := I, is_dhcp := false, dhcp_v4 := true, dhcp_v6 := true,
             rfc2132 := false, ip_list := some a, gw_list := some g, dns_list := some d,
             domains := some s } := by
    have hmode3 : strneq a ['d', 'h', 'c', 'p'] 4 = false := hmode2
    simp [parse_config, htok, hmode3]
  have harg : I ++ "=".toList ++ a ++ ",".toList ++ g ++ ",".toList ++ d ++ ",".toList ++ s =
      I ++ '=' :: (a ++ ',' :: (g ++ ',' :: (d ++ ',' :: s))) := by simp
  refine ⟨by rw [hcfg, hp], _, rfl, ?_, ?_⟩
  · rw [harg, parse_ifcfg_arg_eq w I _ hI1, hp]
    simp only
    rw [write_network_file_eq _ _ _ _ _ _ _ _ _ _ hopen, write_sections_eq, ← filepath_eq]
    simp [match_section, hI2, key_lines_single _ (trimmed_ne_nil ha.1) ha.2.1,
      key_lines_single _ (trimmed_ne_nil hg.1) hg.2.1,
      key_lines_single _ (trimmed_ne_nil hd.1) hd.2.1, domains_line, trimmed_ne_nil hs]
  · intro na ng nd ns
    have hlines := static_file_lines I a g d s na ng nd ns
    have htl : ∀ l ∈ (file_lines I).tail, '=' ∉ l := fun l hl hm =>
      hI1 (@mem_of_mem_cut '\n' I l (List.mem_of_mem_tail hl) '=' hm)
    have hx : ∀ {k1 k2 l : List Char}, k1 <+: l → k2 <+: l → ¬ (k1 <+: k2 ∨ k2 <+: k1) →
        False :=
      fun h1 h2 hne => hne (List.prefix_or_prefix_of_prefix h1 h2)
    have hmem : ∀ l ∈ file_lines ("[Match]\nName=".toList ++ I ++
          "\n\n[Network]\nAddress=".toList ++ a ++ "\nGateway=".toList ++ g ++
          "\nDNS=".toList ++ d ++ "\nDomains=".toList ++ s ++ "\n".toList),
        l = "[Match]".toList ∨
          (l = "Name=".toList ++ (file_lines I).headD [] ∨ l ∈ (file_lines I).tail) ∨
          l = [] ∨ l = "[Network]".toList ∨ l = "Address=".toList ++ a ∨
          l = "Gateway=".toList ++ g ∨ l = "DNS=".toList ++ d ∨ l = "Domains=".toList ++ s ∨
          l = [] := by
      intro l hl
      rw [hlines, file_lines_name] at hl
      simpa only [List.mem_cons, List.mem_append, List.mem_singleton, List.not_mem_nil,
        or_false] using hl
    refine ⟨?_, ?_, ?_, ?_⟩
    · intro l hl hp2
      rcases hmem l hl with h | (h | h) | h | h | h | h | h | h | h <;>
        first
        | (subst h; exact absurd hp2 (by decide))
        | (subst h; exact hx hp2 (List.prefix_append _ _) (by decide))
        | (obtain ⟨t, rfl⟩ := hp2; exact htl _ h (by simp))
    · have f1 : ∀ x : List Char, decide ("Domains=".toList <+: "Name=".toList ++ x) = false :=
        fun x => decide_eq_false (fun h => hx h (List.prefix_append _ _) (by decide))
      have f2 : (file_lines I).tail.filter (fun l => decide ("Domains=".toList <+: l)) = [] := by
        rw [List.filter_eq_nil_iff]
        intro l hl
        simp only [decide_eq_true_eq]
        rintro ⟨t, rfl⟩
        exact htl _ hl (by simp)
      have f3 : decide ("Domains=".toList <+: "Address=".toList ++ a) = false :=
        decide_eq_false (fun h => hx h (List.prefix_append _ _) (by decide))
      have f4 : decide ("Domains=".toList <+: "Gateway=".toList ++ g) = false :=
        decide_eq_false (fun h => hx h (List.prefix_append _ _) (by decide))
      have f5 : decide ("Domains=".toList <+: "DNS=".toList ++ d) = false :=
        decide_eq_false (fun h => hx h (List.prefix_append _ _) (by decide))
      have f6 : decide ("Domains=".toList <+: "Domains=".toList ++ s) = true :=
        decide_eq_true (List.prefix_append _ _)
      have f7 : decide ("Domains=".toList <+: "[Match]".toList) = false := by decide
      have f8 : decide ("Domains=".toList <+: "[Network]".toList) = false := by decide
      have f9 : decide ("Domains=".toList <+: ([] : List Char)) = false := by decide
      rw [hlines, file_lines_name]
      simp only [List.filter_cons, List.filter_append, List.filter_nil, f1, f2, f3, f4, f5, f6,
        f7, f8, f9, Bool.false_eq_true, if_false, if_true, List.nil_append]
    · intro l hl hp2
      rcases hmem l hl with h | (h | h) | h | h | h | h | h | h | h <;>
        first
        | exact h
        | (subst h; exact absurd hp2 (by decide))
        | (subst h; exact (hx hp2 (List.prefix_append _ _) (by decide)).elim)
    · intro nI
      rw [hlines, file_lines, cut_of_not_mem]
      · rfl
      · intro hm
        rcases List.mem_append.1 hm with hm | hm
        · exact absurd hm (by decide)
        · exact nI hm

theorem static_directive_file_witness :
    parse_config "eth1".toList "192.168.1.10,192.168.1.1,8.8.8.8,example.com".toList =
      some { interface := "eth1".toList, is_dhcp := false, dhcp_v4 := true, dhcp_v6 := true,
             rfc2132 := false, ip_list := some "192.168.1.10".toList,
             gw_list := some "192.168.1.1".toList, dns_list := some "8.8.8.8".toList,
             domains := some "example.com".toList } ∧
    parse_ifcfg_arg empty_world
        "eth1=192.168.1.10,192.168.1.1,8.8.8.8,example.com".toList =
      (0, empty_world.store "/run/systemd/network/60-ifcfg-eth1.network".toList
        ("[Match]\nName=eth1\n\n[Network]\nAddress=192.168.1.10\nGateway=192.168.1.1\n" ++
          "DNS=8.8.8.8\nDomains=example.com\n").toList) ∧
    (∀ l ∈ file_lines
        ("[Match]\nName=eth1\n\n[Network]\nAddress=192.168.1.10\nGateway=192.168.1.1\n" ++
          "DNS=8.8.8.8\nDomains=example.com\n").toList,
      ¬ "DHCP=".toList <+: l ∧ ¬ "[DHCP".toList <+: l) ∧
    (file_lines
        ("[Match]\nName=eth1\n\n[Network]\nAddress=192.168.1.10\nGateway=192.168.1.1\n" ++
          "DNS=8.8.8.8\nDomains=example.com\n").toList).filter
        (fun l => decide ("Domains=".toList <+: l)) = ["Domains=example.com".toList] ∧
    file_lines
        ("[Match]\nName=eth1\n\n[Network]\nAddress=192.168.1.10\nGateway=192.168.1.1\n" ++
          "DNS=8.8.8.8\nDomains=example.com\n").toList =
      ["[Match]", "Name=eth1", "", "[Network]", "Address=192.168.1.10", "Gateway=192.168.1.1",
        "DNS=8.8.8.8", "Domains=example.com", ""].map String.toList := by
  obtain ⟨h1, content, hc, h2, h3⟩ := static_directive_file empty_world "eth1".toList
    "192.168.1.10".toList "192.168.1.1".toList "8.8.8.8".toList "example.com".toList
    (by decide) (by decide) ⟨⟨rfl, rfl⟩, by decide, by decide⟩ ⟨⟨rfl, rfl⟩, by decide, by decide⟩
    ⟨⟨rfl, rfl⟩, by decide, by decide⟩ (by decide) ⟨rfl, rfl⟩ (by decide) rfl
  subst hc
  have h4 := h3 (by decide) (by decide) (by decide) (by decide)
  exact ⟨h1, h2, fun l hl => ⟨h4.1 l hl, fun hp => List.not_mem_nil l (h4.2.2.1 l hl hp)⟩,
    h4.2.1, h4.2.2.2 (by decide)⟩

/-- C5, as stated, fails: in the directive
`eth0=x\nDHCP=yes,g,d,s\n\n[DHCPv4]\nUseDNS=true` the values meet the conditions
of the claim, and the file has the line `DHCP=yes`, the line `[DHCPv4]` and no
line `Domains=` followed by the whole search-domain string; and the directive
`eth0\n[DHCPv4]=a,g,d,s`, whose identifier holds neither '=' nor ':', writes a
file with the line `[DHCPv4]`. -/
theorem static_directive_injected_lines :
    single_token "x\nDHCP=yes".toList ∧ single_token "g".toList ∧ single_token "d".toList ∧
    ¬ "dhcp".toList <+: "x\nDHCP=yes".toList ∧
    trimmed "s\n\n[DHCPv4]\nUseDNS=true".toList ∧ ',' ∉ "s\n\n[DHCPv4]\nUseDNS=true".toList ∧
    parse_ifcfg_arg empty_world "eth0=x\nDHCP=yes,g,d,s\n\n[DHCPv4]\nUseDNS=true".toList =
      (0, empty_world.store "/run/systemd/network/60-ifcfg-eth0.network".toList
        ("[Match]\nName=eth0\n\n[Network]\nAddress=x\nDHCP=yes\nGateway=g\nDNS=d\n" ++
          "Domains=s\n\n[DHCPv4]\nUseDNS=true\n").toList) ∧
    file_lines ("[Match]\nName=eth0\n\n[Network]\nAddress=x\nDHCP=yes\nGateway=g\nDNS=d\n" ++
        "Domains=s\n\n[DHCPv4]\nUseDNS=true\n").toList =
      ["[Match]", "Name=eth0", "", "[Network]", "Address=x", "DHCP=yes", "Gateway=g", "DNS=d",
        "Domains=s", "", "[DHCPv4]", "UseDNS=true", ""].map String.toList ∧
    '=' ∉ "eth0\n[DHCPv4]".toList ∧ ':' ∉ "eth0\n[DHCPv4]".toList ∧
    parse_ifcfg_arg empty_world "eth0\n[DHCPv4]=a,g,d,s".toList =
      (0, empty_world.store "/run/systemd/network/60-ifcfg-eth0__DHCPv4_.network".toList
        ("[Match]\nName=eth0\n[DHCPv4]\n\n[Network]\nAddress=a\nGateway=g\nDNS=d\n" ++
          "Domains=s\n").toList) ∧
    file_lines ("[Match]\nName=eth0\n[DHCPv4]\n\n[Network]\nAddress=a\nGateway=g\nDNS=d\n" ++
        "Domains=s\n").toList =
      ["[Match]", "Name=eth0", "[DHCPv4]", "", "[Network]", "Address=a", "Gateway=g", "DNS=d",
        "Domains=s", ""].map String.toList :=
  ⟨⟨⟨rfl, rfl⟩, by decide, by decide⟩, ⟨⟨rfl, rfl⟩, by decide, by decide⟩,
    ⟨⟨rfl, rfl⟩, by decide, by decide⟩, by decide, ⟨rfl, rfl⟩, by decide, rfl, by decide,
    by decide, by decide, rfl, by decide⟩

end IfcfgNetworkd
